import Mathlib

/- Verification of the surveying calculation engine of the groma plugin
   (src/calculation.py).  The Python code is embedded over exact real
   arithmetic: `float` becomes `ℝ`, Python `None` becomes `Option`,
   Python exceptions become `Except`, and in-place list mutation is made
   explicit by returning the updated lists.  `Angle` objects are carried
   as their canonical radian value.  The geometric primitives of
   base_classes.py (absent from the sources; only calculation.py and the
   tests refer to it) are modelled from the specification and marked as
   such in their doc comments. -/

open Real

namespace Groma

noncomputable section

/-- Embeds the Python loop `while x > c: x = x - 2*math.pi` used by
calculation.py to normalize angles (traverse lines 303-304, 336-337,
385-386). -/
def wrapDown (c : ℝ) (x : ℝ) : ℝ :=
  if x > c then wrapDown c (x - 2 * π) else x
termination_by (⌈(x - c) / (2 * π)⌉).toNat
decreasing_by
  have hpi : 0 < 2 * π := by positivity
  have h1 : (x - 2 * π - c) / (2 * π) = (x - c) / (2 * π) - 1 := by
    field_simp; ring
  have h2 : (0:ℝ) < (x - c) / (2 * π) := by
    apply div_pos _ hpi
    linarith
  have h3 : 0 < ⌈(x - c) / (2 * π)⌉ := Int.ceil_pos.mpr h2
  rw [h1, Int.ceil_sub_one]
  omega

/-- Embeds the Python loop `while x < c: x = x + 2*math.pi` used by
calculation.py to normalize angles (orientation lines 62-63, traverse
lines 305-306, 338-339, 383-384). -/
def wrapUp (c : ℝ) (x : ℝ) : ℝ :=
  if x < c then wrapUp c (x + 2 * π) else x
termination_by (⌈(c - x) / (2 * π)⌉).toNat
decreasing_by
  have hpi : 0 < 2 * π := by positivity
  have h1 : (c - (x + 2 * π)) / (2 * π) = (c - x) / (2 * π) - 1 := by
    field_simp; ring
  have h2 : (0:ℝ) < (c - x) / (2 * π) := by
    apply div_pos _ hpi
    linarith
  have h3 : 0 < ⌈(c - x) / (2 * π)⌉ := Int.ceil_pos.mpr h2
  rw [h1, Int.ceil_sub_one]
  omega

/-- Embeds Python `math.atan2(y, x)`: the argument of the complex number
`x + y*i`, in `(-π, π]`. -/
def atan2 (y x : ℝ) : ℝ := Complex.arg ⟨x, y⟩

/-- Python exceptions raised by calculation.py that are relevant here. -/
inductive PyErr where
  | indexError (msg : String)
  | zeroDivisionError
  deriving DecidableEq

/-- Embeds base_classes.Point as used by calculation.py: identifier,
planar coordinates `e`/`n`, optional elevation `z`, optional point code
`pc` and optional point type `pt`. -/
structure Point where
  id : String := ""
  e : ℝ := 0
  n : ℝ := 0
  z : Option ℝ := none
  pc : Option String := none
  pt : Option String := none

/-- Embeds base_classes.PolarObservation as used by the orientation,
intersection and resection calculations: the observed point id, the
measured horizontal angle (required on these code paths) and the
optional point code. -/
structure PolarObservation where
  point_id : String := ""
  hz : ℝ := 0
  pc : Option String := none

/-- Embeds base_classes.Station: a point paired with the observation
holding the station's orientation angle `o.hz`. -/
structure Station where
  p : Point
  o : PolarObservation

/-- Modelled from the spec: base_classes.distance2d, the 2D Euclidean
distance between two points (spec section 8: `distance2d(Point(100,200,20),
Point(150,250,30)) ≈ 70.7107`). -/
def distance2d (a b : Point) : ℝ :=
  Real.sqrt ((b.e - a.e) ^ 2 + (b.n - a.n) ^ 2)

/-- Modelled from the spec: base_classes.bearing, the whole-circle
azimuth from one point to another, measured from north (the `n` axis)
towards east (the `e` axis) and normalized into `[0, 2π)` (spec glossary
and section 8: bearing of a 45-degree diagonal is `45-00-00`). -/
def bearing (a b : Point) : ℝ :=
  wrapUp 0 (atan2 (b.e - a.e) (b.n - a.n))

/-- One element of an inner `ref` list handled by Calculation.orientation.
In Python each `ref` is a heterogeneous list starting as
`[Point, PolarObservation]`; the loop appends a float distance and three
Angle objects to it. -/
inductive Cell where
  | point (p : Point)
  | observation (o : PolarObservation)
  | num (d : ℝ)
  | ang (a : ℝ)

/-- One inner list of the `ref_list` argument of Calculation.orientation:
the control point (`ref[0]`), the observation (`ref[1]`) and the working
values appended so far (`ref[2:]`). -/
structure RefEntry where
  p : Point
  o : PolarObservation
  extra : List Cell := []

/-- The full heterogeneous list a `ref` stands for in Python. -/
def RefEntry.cells (r : RefEntry) : List Cell :=
  Cell.point r.p :: Cell.observation r.o :: r.extra

/-- Accumulator of the first loop of Calculation.orientation: the running
sums `sd`, `sz`, `cz` and the mutated `ref_list` built so far. -/
structure OriAcc where
  sd : ℝ
  sz : ℝ
  cz : ℝ
  out : List RefEntry

/-- The per-reference working values computed by the first loop of
Calculation.orientation (lines 41-46): bearing `b`, measured angle `r`,
orientation correction `z` (shifted into non-negative range) and 2D
distance `d`. -/
def zOf (stp : Point) (ref : RefEntry) : ℝ :=
  let z0 := bearing stp ref.p - ref.o.hz
  if z0 < 0 then z0 + 2 * π else z0

/-- One iteration of the first loop of Calculation.orientation
(lines 38-53): accumulate the distance-weighted direction sums and append
the four working values `d`, `Angle(z)`, `Angle(r)`, `Angle(b)` to the
current `ref` list. -/
def oriStep (stp : Point) (acc : OriAcc) (ref : RefEntry) : OriAcc :=
  let b := bearing stp ref.p
  let r := ref.o.hz
  let z := zOf stp ref
  let d := distance2d stp ref.p
  { sd := acc.sd + d
    sz := acc.sz + Real.sin z * d
    cz := acc.cz + Real.cos z * d
    out := acc.out ++
      [{ ref with extra := ref.extra ++ [.num d, .ang z, .ang r, .ang b] }] }

namespace Calculation

/-- Embeds Calculation.orientation (calculation.py lines 26-89): the
distance-weighted vector-mean orientation angle of a station from a list
of reference directions.  `Except.error` models the raised
`ValueError('Total distance is 0')`; the `ok` payload is the returned
`Angle(za)` (in radians) together with the `ref_list` as mutated by the
appends of the first loop.  The per-reference residual display table
built on lines 67-88 (pure read-only unit formatting of the same values)
is not modelled. -/
def orientation (st : Station) (refs : List RefEntry) :
    Except String (ℝ × List RefEntry) :=
  let a := refs.foldl (oriStep st.p) ⟨0, 0, 0, []⟩
  if a.sd = 0 then .error "Total distance is 0"
  else
    let sz := a.sz / a.sd
    let cz := a.cz / a.sd
    let za := wrapUp 0 (atan2 sz cz)
    .ok (za, a.out)

end Calculation

/-- Total 2D distance over a reference list (the final value of `sd`). -/
def sdOf (stp : Point) (refs : List RefEntry) : ℝ :=
  (refs.map fun r => distance2d stp r.p).sum

/-- Final value of the accumulator `sz = Σ sin(z)·d`. -/
def szOf (stp : Point) (refs : List RefEntry) : ℝ :=
  (refs.map fun r => Real.sin (zOf stp r) * distance2d stp r.p).sum

/-- Final value of the accumulator `cz = Σ cos(z)·d`. -/
def czOf (stp : Point) (refs : List RefEntry) : ℝ :=
  (refs.map fun r => Real.cos (zOf stp r) * distance2d stp r.p).sum

/-- The effect of one orientation pass on one `ref` list: four working
values are appended in place (calculation.py lines 50-53). -/
def appendWork (stp : Point) (ref : RefEntry) : RefEntry :=
  { ref with
    extra := ref.extra ++
      [.num (distance2d stp ref.p), .ang (zOf stp ref), .ang ref.o.hz,
       .ang (bearing stp ref.p)] }

/-- Modelled from the spec: base_classes.intersecLL, intersection of the
two lines through `p1` with bearing `b1` and through `p2` with bearing
`b2`; a zero determinant (parallel rays) gives the documented
no-intersection result `None` (spec section 4.3). -/
def intersecLL (p1 p2 : Point) (b1 b2 : ℝ) : Option Point :=
  let det := Real.sin b1 * Real.cos b2 - Real.cos b1 * Real.sin b2
  if det = 0 then none
  else
    let t := ((p2.e - p1.e) * Real.cos b2 - (p2.n - p1.n) * Real.sin b2) / det
    some { id := "@", e := p1.e + t * Real.sin b1, n := p1.n + t * Real.cos b1 }

namespace Calculation

/-- Embeds Calculation.intersection (calculation.py lines 120-150).
The Python function returns a pair `(point, display_row)` whose two
components are `None` together; only the point component is modelled,
the display row being pure unit formatting of the same data. -/
def intersection (s1 : Station) (obs1 : PolarObservation)
    (s2 : Station) (obs2 : PolarObservation) : Option Point :=
  if obs1.point_id ≠ obs2.point_id then none
  else
    let b1 := s1.o.hz + obs1.hz
    let b2 := s2.o.hz + obs2.hz
    match intersecLL s1.p s2.p b1 b2 with
    | none => none
    | some pp =>
        some { pp with
               id := obs1.point_id
               pc := if obs1.pc = none then obs2.pc else obs1.pc }

end Calculation

/-- Modelled from the spec: a circle as a center and a radius (spec
section 3). -/
structure Circle where
  e : ℝ
  n : ℝ
  r : ℝ

/-- Modelled from the spec: the base_classes circle construction from two
points and an inscribed angle (spec sections 2 and 4.4).  By the
inscribed-angle theorem the radius is `chord/(2·sin α)` and the center
sits on the chord's perpendicular bisector at distance
`chord/(2·tan α)` from the midpoint. -/
def circle2PA (p1 p2 : Point) (alpha : ℝ) : Circle :=
  let d := distance2d p1 p2
  { r := d / (2 * Real.sin alpha)
    e := (p1.e + p2.e) / 2 + (p2.n - p1.n) / (2 * Real.tan alpha)
    n := (p1.n + p2.n) / 2 - (p2.e - p1.e) / (2 * Real.tan alpha) }

/-- Modelled from the spec: base_classes.intersecCC, the circle-circle
intersection, which "can return with zero or two intersection points"
(calculation.py lines 180-181, spec section 4.4). -/
def intersecCC (c1 c2 : Circle) : List Point :=
  let dx := c2.e - c1.e
  let dy := c2.n - c1.n
  let dsq := dx ^ 2 + dy ^ 2
  let d := Real.sqrt dsq
  if d = 0 then []
  else
    let a := (c1.r ^ 2 - c2.r ^ 2 + dsq) / (2 * d)
    let h2 := c1.r ^ 2 - a ^ 2
    if h2 < 0 then []
    else
      let h := Real.sqrt h2
      [{ id := "@", e := c1.e + a * dx / d + h * dy / d,
         n := c1.n + a * dy / d - h * dx / d },
       { id := "@", e := c1.e + a * dx / d - h * dy / d,
         n := c1.n + a * dy / d + h * dx / d }]

namespace Calculation

/-- Embeds Calculation.resection (calculation.py lines 152-204).  When
the circle-circle intersection does not yield exactly two points the
Python code raises `IndexError('There must be exactly two points')`
(line 202), which is not caught by the surrounding
`except (ValueError, TypeError)` clause and so propagates; this is the
`Except.error` case.  The 4-row display table is pure formatting and is
not modelled. -/
def resection (st : Station) (p1 p2 p3 : Point)
    (obs1 obs2 obs3 : PolarObservation) : Except PyErr Point :=
  let alpha := obs2.hz - obs1.hz
  let beta := obs3.hz - obs2.hz
  let points := intersecCC (circle2PA p1 p2 alpha) (circle2PA p2 p3 beta)
  match points with
  | [q0, q1] =>
      if |p2.e - q0.e| < 0.1 ∧ |p2.n - q0.n| < 0.1 then
        .ok { id := st.p.id, e := q1.e, n := q1.n, z := st.p.z,
              pc := st.p.pc, pt := st.p.pt }
      else
        .ok { id := st.p.id, e := q0.e, n := q0.n, z := st.p.z,
              pc := st.p.pc, pt := st.p.pt }
  | _ => .error (.indexError "There must be exactly two points")

end Calculation

/-- Embeds a Python read `l[i]` on a list: raises `IndexError` when the
index is out of range. -/
def listGet {α : Type} (l : List α) (i : ℕ) : Except PyErr α :=
  if h : i < l.length then .ok (l.get ⟨i, h⟩)
  else .error (.indexError "list index out of range")

/-- Embeds a Python item assignment `l[i] = x` on a list: raises
`IndexError` when the index is out of range, otherwise returns the
updated list. -/
def listSetE {α : Type} (l : List α) (i : ℕ) (x : α) : Except PyErr (List α) :=
  if i < l.length then .ok (l.set i x)
  else .error (.indexError "list assignment index out of range")

/-- Embeds a Python two-level assignment `m[i][j] = x` on a list of
lists: `m[i]` is read first (possibly raising `IndexError`), then the row
object is mutated in place. -/
def set2 (m : List (List ℝ)) (i j : ℕ) (x : ℝ) : Except PyErr (List (List ℝ)) := do
  let row ← listGet m i
  let row1 ← listSetE row j x
  listSetE m i row1

/-- One pass (pivot index `i`) of Calculation.gauss_elimination
(calculation.py lines 513-531) on a matrix stored as a list of distinct
rows.  A zero diagonal pivot raises `ZeroDivisionError`, as Python's
`1.0 / a[i][i]` does. -/
def gaussPivot (size : ℕ) (ab : List (List ℝ) × List ℝ) (i : ℕ) :
    Except PyErr (List (List ℝ) × List ℝ) :=
  let a := ab.1
  let b := ab.2
  let aii := (a.getD i []).getD i 0
  if aii = 0 then .error .zeroDivisionError
  else
    let q := 1 / aii
    let a := a.set i ((a.getD i []).mapIdx fun k x => if k = i then q else q * x)
    let b := b.set i (q * b.getD i 0)
    let ab := (List.range size).foldl
      (fun (ab : List (List ℝ) × List ℝ) j =>
        if j = i then ab
        else
          let a := ab.1
          let b := ab.2
          let t := (a.getD j []).getD i 0
          let rowi := a.getD i []
          let a := a.set j ((a.getD j []).mapIdx fun k x =>
            if k = i then -t * q else x - t * rowi.getD k 0)
          (a, b.set j (b.getD j 0 - t * b.getD i 0)))
      (a, b)
    .ok ab

namespace Calculation

/-- Embeds Calculation.gauss_elimination (calculation.py lines 504-532)
for a matrix held as a list of distinct row objects: Gauss-Jordan
elimination returning `(solution, inverse)`. -/
def gauss_elimination (a : List (List ℝ)) (b : List ℝ) :
    Except PyErr (List ℝ × List (List ℝ)) := do
  let size := b.length
  let ab ← (List.range size).foldlM (gaussPivot size) (a, b)
  .ok (ab.2, ab.1)

/-- Embeds Calculation.orthogonal_transformation (calculation.py lines
534-575): closed-form 4-parameter fit `E = E0 + c·e - d·n`,
`N = N0 + d·e + c·n` via centroid reduction.  Accumulation loops become
sums over the point list. -/
def orthogonal_transformation (plist : List (Point × Point)) : List ℝ :=
  let np : ℝ := plist.length
  let es := (plist.map fun p => p.1.e).sum
  let ns := (plist.map fun p => p.1.n).sum
  let Es := (plist.map fun p => p.2.e).sum
  let Ns := (plist.map fun p => p.2.n).sum
  let ew := es / np
  let nw := ns / np
  let Ew := Es / np
  let Nw := Ns / np
  let s1 := (plist.map fun p =>
    (p.1.e - ew) * (p.2.e - Ew) + (p.1.n - nw) * (p.2.n - Nw)).sum
  let s2 := (plist.map fun p =>
    (p.1.e - ew) * (p.2.n - Nw) - (p.1.n - nw) * (p.2.e - Ew)).sum
  let s3 := (plist.map fun p =>
    (p.1.e - ew) * (p.1.e - ew) + (p.1.n - nw) * (p.1.n - nw)).sum
  let c := s1 / s3
  let d := s2 / s3
  let E0 := (Es - c * es + d * ns) / np
  let N0 := (Ns - c * ns - d * es) / np
  [E0, N0, c, d]

/-- Embeds Calculation.orthogonal3tr (calculation.py lines 577-638).
The Python code initializes `ata = []` and then executes
`ata[0][0] = len(plist)` (line 621), so building the 3x3 normal-equation
matrix reads index 0 of an empty list; the subsequent solver call and
the returned `[E0 + al[0], N0 + al[1], alpha + al[2]]` are dead code
reproduced after that failing access. -/
def orthogonal3tr (plist : List (Point × Point)) : Except PyErr (List ℝ) :=
  let appr := orthogonal_transformation plist
  let E0 := appr.getD 0 0
  let N0 := appr.getD 1 0
  let alpha := atan2 (appr.getD 3 0) (appr.getD 2 0)
  let s := plist.foldl
    (fun (acc : ℝ × ℝ × ℝ × ℝ × ℝ × ℝ) p =>
      let e := p.1.e
      let n := p.1.n
      let E := p.2.e
      let N := p.2.n
      let w1 := -e * Real.sin alpha - n * Real.cos alpha
      let w2 := e * Real.cos alpha - n * Real.sin alpha
      let w3 := E - (E0 + e * Real.cos alpha - n * Real.sin alpha)
      let w4 := N - (N0 + e * Real.sin alpha + n * Real.cos alpha)
      (acc.1 + w1, acc.2.1 + w2, acc.2.2.1 + w1 * w1 + w2 * w2,
       acc.2.2.2.1 + w3, acc.2.2.2.2.1 + w4, acc.2.2.2.2.2 + w1 * w3 + w2 * w4))
    (0, 0, 0, 0, 0, 0)
  do
    let ata : List (List ℝ) := []
    let ata ← set2 ata 0 0 (plist.length : ℝ)
    let ata ← set2 ata 0 1 0
    let ata ← set2 ata 0 2 s.1
    let ata ← set2 ata 1 0 0
    let ata ← set2 ata 1 1 (plist.length : ℝ)
    let ata ← set2 ata 1 2 s.2.1
    let ata ← set2 ata 2 0 s.1
    let ata ← set2 ata 2 1 s.2.1
    let ata ← set2 ata 2 2 s.2.2.1
    let al : List ℝ := []
    let al ← listSetE al 0 s.2.2.2.1
    let al ← listSetE al 1 s.2.2.2.2.1
    let al ← listSetE al 2 s.2.2.2.2.2
    let g ← gauss_elimination ata al
    .ok [E0 + g.1.getD 0 0, N0 + g.1.getD 1 0, alpha + g.1.getD 2 0]

end Calculation

/-- One pass (pivot index `i`) of Calculation.gauss_elimination when the
matrix argument consists of `size` references to one shared row, which is
how Calculation.polynomial_transformation calls it: `N1 = [[0.0]*m]*m`
(calculation.py line 749) makes every `N1[j]` the same list object, so
each Python read or write `a[j][k]` acts on the single shared row.
Reads and writes are transcribed statement by statement from lines
513-531 under that aliasing. -/
def gaussAliasedPivot (size : ℕ) (rb : List ℝ × List ℝ) (i : ℕ) :
    Except PyErr (List ℝ × List ℝ) :=
  let r := rb.1
  let b := rb.2
  let rii := r.getD i 0
  if rii = 0 then .error .zeroDivisionError
  else
    let q := 1 / rii
    let r := r.mapIdx fun k x => if k = i then q else q * x
    let b := b.set i (q * b.getD i 0)
    let rb := (List.range size).foldl
      (fun (rb : List ℝ × List ℝ) j =>
        if j = i then rb
        else
          let r := rb.1
          let b := rb.2
          let t := r.getD i 0
          let r := r.mapIdx fun k x => if k = i then -t * q else x - t * x
          (r, b.set j (b.getD j 0 - t * b.getD i 0)))
      (r, b)
    .ok rb

/-- Calculation.gauss_elimination specialised to a fully aliased matrix
argument (all rows one shared list), as produced by the
`[[0.0] * m] * m` initializations in polynomial_transformation. -/
def gaussAliased (size : ℕ) (row : List ℝ) (b : List ℝ) :
    Except PyErr (List ℝ × List ℝ) :=
  (List.range size).foldlM (gaussAliasedPivot size) (row, b)

/-- The inner monomial loop of Calculation.polynomial_transformation
(lines 736-742) writing into row `a1[i]`: for `j`, `k` in
`0..degree` with `j + k ≤ degree`, position `ll` receives
`e^k * n^j` and `ll` advances.  Because of the aliasing of all matrix
rows the same shared row is written for every point. -/
def polyFillRow (degree : ℕ) (e n : ℝ) (row : List ℝ) : List ℝ :=
  ((List.range (degree + 1)).foldl (fun (st : List ℝ × ℕ) j =>
    (List.range (degree + 1)).foldl (fun (st : List ℝ × ℕ) k =>
      if j + k ≤ degree then (st.1.set st.2 (e ^ k * n ^ j), st.2 + 1)
      else st) st) (row, 0)).1

namespace Calculation

/-- Embeds Calculation.polynomial_transformation (calculation.py lines
694-776) with Python's actual list semantics: `a1 = [[0.0] * m] * np`
(line 727) creates `np` references to one shared row, so after the fill
loop the single `a1` row (likewise `a2`) holds the monomials of the last
point only, and `N1 = [[0.0] * m] * m` (line 749) makes the normal
matrix a fully aliased row as well, which is what the solver then
operates on.  The right-hand sides `l1`, `l2` and `n1`, `n2` are
ordinary (unaliased) lists built element by element. -/
def polynomial_transformation (plist : List (Point × Point))
    (degree : ℕ := 3) : Except PyErr (List ℝ × List ℝ × List ℝ) :=
  let np := plist.length
  let m := (degree + 1) * (degree + 2) / 2
  let s1 := (plist.map fun p => p.1.e).sum
  let s2 := (plist.map fun p => p.1.n).sum
  let S1 := (plist.map fun p => p.2.e).sum
  let S2 := (plist.map fun p => p.2.n).sum
  let avge := s1 / (np : ℝ)
  let avgn := s2 / (np : ℝ)
  let avgE := S1 / (np : ℝ)
  let avgN := S2 / (np : ℝ)
  let a1row := plist.foldl
    (fun row p => polyFillRow degree (p.1.e - avge) (p.1.n - avgn) row)
    (List.replicate m 0)
  let a2row := plist.foldl
    (fun row p => polyFillRow degree (p.1.e - avge) (p.1.n - avgn) row)
    (List.replicate m 0)
  let l1 := plist.map fun p => p.2.e - avgE
  let l2 := plist.map fun p => p.2.n - avgN
  let N1row := (List.range m).foldl (fun (acc : List ℝ) i =>
    (List.range m).foldl (fun (acc : List ℝ) j =>
      if i ≤ j then
        let s := (List.range np).foldl
          (fun s _ => s + a1row.getD i 0 * a1row.getD j 0) 0
        (acc.set j s).set i s
      else acc) acc) (List.replicate m 0)
  let N2row := (List.range m).foldl (fun (acc : List ℝ) i =>
    (List.range m).foldl (fun (acc : List ℝ) j =>
      if i ≤ j then
        let s := (List.range np).foldl
          (fun s _ => s + a2row.getD i 0 * a2row.getD j 0) 0
        (acc.set j s).set i s
      else acc) acc) (List.replicate m 0)
  let n1 := (List.range m).foldl (fun (acc : List ℝ) i =>
    acc.set i ((List.range np).foldl
      (fun s k => s + a1row.getD i 0 * l1.getD k 0) 0)) (List.replicate m 0)
  let n2 := (List.range m).foldl (fun (acc : List ℝ) i =>
    acc.set i ((List.range np).foldl
      (fun s k => s + a2row.getD i 0 * l2.getD k 0) 0)) (List.replicate m 0)
  do
    let g1 ← gaussAliased m N1row n1
    let g2 ← gaussAliased m N2row n2
    .ok (g1.2, g2.2, [avge, avgn, avgE, avgN])

end Calculation

/-- Inputs of the closing phase of Calculation.traverse (lines 394-417):
the station count, the known start and end coordinates, the leg
distances `t[i]`, and the per-leg increments `de[i]`, `dn[i]` computed by
the bearing chain of lines 351-392, which also accumulates
`sumde = Σ de[i]`, `sumdn` and `sumt` over `i = 1..n-1`. -/
structure TravLegs where
  n : ℕ
  startE : ℝ
  startN : ℝ
  endE : ℝ
  endN : ℝ
  t : ℕ → ℝ
  de : ℕ → ℝ
  dn : ℕ → ℝ
  free : Bool

namespace TravLegs

/-- `sumde` accumulated on line 390 over `i = 1..n-1`. -/
def sumde (L : TravLegs) : ℝ := ∑ i ∈ Finset.range (L.n - 1), L.de (i + 1)

/-- `sumdn` accumulated on line 391 over `i = 1..n-1`. -/
def sumdn (L : TravLegs) : ℝ := ∑ i ∈ Finset.range (L.n - 1), L.dn (i + 1)

/-- `sumt` accumulated on line 392 over `i = 1..n-1`. -/
def sumt (L : TravLegs) : ℝ := ∑ i ∈ Finset.range (L.n - 1), L.t (i + 1)

/-- Easting misclosure `dde` (lines 395-400). -/
def dde (L : TravLegs) : ℝ :=
  if L.free then 0 else L.endE - L.startE - L.sumde

/-- Northing misclosure `ddn` (lines 395-401). -/
def ddn (L : TravLegs) : ℝ :=
  if L.free then 0 else L.endN - L.startN - L.sumdn

/-- Linear misclosure `ddist = math.hypot(dde, ddn)` (lines 398, 402). -/
def ddist (L : TravLegs) : ℝ :=
  if L.free then 0 else Real.sqrt (L.dde ^ 2 + L.ddn ^ 2)

/-- `we = dde / sumt` (line 409). -/
def we (L : TravLegs) : ℝ := L.dde / L.sumt

/-- `wn = ddn / sumt` (line 410). -/
def wn (L : TravLegs) : ℝ := L.ddn / L.sumt

/-- Compass-rule easting correction `ve[i] = t[i].d * we` (line 414);
`ve[0]` keeps its `0.0` initialization (line 405). -/
def ve (L : TravLegs) (i : ℕ) : ℝ := if i = 0 then 0 else L.t i * L.we

/-- Compass-rule northing correction `vn[i] = t[i].d * wn` (line 415). -/
def vn (L : TravLegs) (i : ℕ) : ℝ := if i = 0 then 0 else L.t i * L.wn

/-- Accumulated adjusted eastings `ee[0] = startp.p.e`,
`ee[i] = ee[i-1] + de[i] + ve[i]` (lines 411, 416). -/
def ee (L : TravLegs) : ℕ → ℝ
  | 0 => L.startE
  | i + 1 => L.ee i + L.de (i + 1) + L.ve (i + 1)

/-- Accumulated adjusted northings `nn[0] = startp.p.n`,
`nn[i] = nn[i-1] + dn[i] + vn[i]` (lines 412, 417). -/
def nn (L : TravLegs) : ℕ → ℝ
  | 0 => L.startN
  | i + 1 => L.nn i + L.dn (i + 1) + L.vn (i + 1)

end TravLegs

/-- `sumbeta = Σ beta[i].get_angle()` of Calculation.traverse lines
331-333; on that code path every `beta[i]` is present, which the `getD`
default never masks under the hypotheses of the theorems below. -/
def sumbetaOf (n : ℕ) (beta : ℕ → Option ℝ) : ℝ :=
  ∑ i ∈ Finset.range n, (beta i).getD 0

/-- Angular misclosure `dbeta` of Calculation.traverse lines 329-342:
`(n-1)*pi - sumbeta` normalized by the while loops of lines 336-339 when
both endpoint orientations are present, and `0.0` otherwise. -/
def dbetaOf (n : ℕ) (beta : ℕ → Option ℝ) : ℝ :=
  if beta 0 ≠ none ∧ beta (n - 1) ≠ none then
    wrapUp (-π) (wrapDown π (((n : ℝ) - 1) * π - sumbetaOf n beta))
  else 0

/-- Per-station angle correction `vbeta[i] = dbeta / n` of
Calculation.traverse lines 346-348. -/
def vbetaOf (n : ℕ) (beta : ℕ → Option ℝ) (_i : ℕ) : ℝ :=
  dbetaOf n beta / n

/-- Point record of a traverse station: coordinates may be absent, as
the validation phase of Calculation.traverse checks for `None`
coordinates explicitly. -/
structure TravPoint where
  id : String := ""
  e : Option ℝ := none
  n : Option ℝ := none

/-- Observation record of a traverse: horizontal angle, slope distance
and zenith angle may each be absent. -/
structure TravObs where
  hz : Option ℝ := none
  d : Option ℝ := none
  v : Option ℝ := none

/-- Modelled from the spec: PolarObservation.horiz_dist, which derives
the horizontal distance from the slope distance `d` and the zenith angle
`v` when both are present (spec section 3). -/
def TravObs.horizDist (o : TravObs) : ℝ :=
  match o.d, o.v with
  | some dd, some vv => dd * Real.sin vv
  | some dd, none => dd
  | none, _ => 0

/-- Station entry of a traverse record: the station's point, which may
be absent altogether (the repository's tests build interior traverse
stations as `Station(None, obs)`), plus the setup observation's
horizontal angle `st.o.hz` (the orientation).  The observation object
itself is taken to be present, as `st.o.hz` is read unconditionally on
lines 262 and 274 and every record the repository builds carries one. -/
structure TravStation where
  p : Option TravPoint := none
  ohz : Option ℝ := none

/-- One element of the `trav_obs` argument of Calculation.traverse: the
`[station, previous observation, next observation]` triple. -/
structure TravRec where
  st : TravStation := {}
  obsprev : Option TravObs := none
  obsnext : Option TravObs := none

instance : Inhabited TravPoint := ⟨{}⟩

instance : DecidableEq TravPoint := fun _ _ => Classical.dec _

instance : Inhabited TravObs := ⟨{}⟩

instance : Inhabited TravStation := ⟨{}⟩

instance : Inhabited TravRec := ⟨{}⟩

/-- Python `obs.hz` guarded by `obs is not None`: `None` when the
observation or its horizontal angle is missing. -/
def hzOf (o : Option TravObs) : Option ℝ :=
  match o with
  | none => none
  | some ob => ob.hz

/-- Python `obs.d` guarded by `obs is not None`. -/
def dOf (o : Option TravObs) : Option ℝ :=
  match o with
  | none => none
  | some ob => ob.d

/-- Python `p.e` guarded by `p is None` checks (lines 234, 245). -/
def peOf (p : Option TravPoint) : Option ℝ :=
  match p with
  | none => none
  | some pt => pt.e

/-- Python `p.n` guarded by `p is None` checks (lines 234, 245). -/
def pnOf (p : Option TravPoint) : Option ℝ :=
  match p with
  | none => none
  | some pt => pt.n

/-- Mutable arrays `beta`, `t`, `t1`, `t2` of Calculation.traverse
(lines 252-255), all initialized to `[None] * n`. -/
structure TravSt where
  beta : ℕ → Option ℝ
  t : ℕ → Option ℝ
  t1 : ℕ → Option ℝ
  t2 : ℕ → Option ℝ

/-- The all-`None` initial state of the collection loop. -/
def travInit : TravSt := ⟨fun _ => none, fun _ => none, fun _ => none, fun _ => none⟩

/-- Error message of line 228. -/
def msgFew : String := "Error: At least 3 points must be added to traverse line!"

/-- Error message of line 236. -/
def msgNoStart : String := "Error: No coordinates on start point!"

/-- Error message of line 267. -/
def msgNoOrient : String :=
  "Error: No orientation on start point and no coordinates on end point!"

/-- Error message of line 284 with the `%s` placeholder substituted. -/
def msgNoAngle (pid : String) : String :=
  "Error: No angle at point " ++ pid ++ "!"

/-- Error message of lines 318-320 with both placeholders substituted. -/
def msgNoDist (a b : String) : String :=
  "Error: No distance between points " ++ a ++ " and " ++ b ++ "!"

/-- Python failure channels of the traverse validation phase: a
formatted message appended to the result log followed by `return None`,
or a raised `AttributeError`. -/
inductive TravErr where
  | logError (msg : String)
  | attributeError
  deriving DecidableEq

/-- Outcome of the message formatting on line 284,
`tr("Error: No angle at point %s!") % trav_obs[i][0].p.id`: the `.id`
access is not guarded, so a station without a Point object raises
`AttributeError` instead of producing the log message. -/
def angleErr (st : TravStation) : TravErr :=
  match st.p with
  | some p => .logError (msgNoAngle p.id)
  | none => .attributeError

/-- Outcome of the message formatting on lines 318-320, which reads
`trav_obs[i-1][0].p.id` and `trav_obs[i][0].p.id` without a None-guard:
if either station has no Point object the formatting raises
`AttributeError`. -/
def distErr (stPrev stCur : TravStation) : TravErr :=
  match stPrev.p, stCur.p with
  | some p0, some p1 => .logError (msgNoDist p0.id p1.id)
  | _, _ => .attributeError

/-- One iteration (index `i`) of the measurement-collection loop of
Calculation.traverse (lines 257-324): records the turn angle `beta[i]`
(normalized into `[0, 2π]` by the while loops of lines 302-306) and the
leg distances `t`, `t1`, `t2`, and raises the three hard errors of lines
265-268, 280-285 and 316-321.  The warnings of lines 270-271 and 276-278
only append to the log and are not modelled. -/
def travStep (trav : List TravRec) (free : Bool) (n : ℕ) (s : TravSt)
    (i : ℕ) : Except TravErr TravSt :=
  let rcd := trav.getD i default
  if i = 0 ∧ rcd.st.ohz = none ∧ free then .error (.logError msgNoOrient)
  else if 0 < i ∧ i < n - 1 ∧ (hzOf rcd.obsprev = none ∨ hzOf rcd.obsnext = none) then
    .error (angleErr rcd.st)
  else
    let b0 : Option ℝ :=
      if i = 0 then
        match rcd.st.ohz, hzOf rcd.obsnext with
        | some o, some h => some (o + h)
        | _, _ => none
      else if i = n - 1 then
        match rcd.st.ohz, s.beta 0, hzOf rcd.obsprev with
        | some o, some _, some h => some (2 * π - (o + h))
        | _, _, _ => none
      else
        match hzOf rcd.obsprev, hzOf rcd.obsnext with
        | some hp, some hn => some (hn - hp)
        | _, _ => none
    let b1 : Option ℝ :=
      match b0 with
      | some x => some (wrapUp 0 (wrapDown (2 * π) x))
      | none => none
    let s1 : TravSt := { s with beta := Function.update s.beta i b1 }
    let withNext : TravSt → TravSt := fun st =>
      if dOf rcd.obsnext ≠ none then
        let hnext := (rcd.obsnext.getD default).horizDist
        { st with t := Function.update st.t (i + 1) (some hnext) }
      else st
    if dOf rcd.obsprev ≠ none then
      let hdist := (rcd.obsprev.getD default).horizDist
      let s2 : TravSt :=
        match s1.t i with
        | some ti =>
            { s1 with
              t1 := Function.update s1.t1 i (some hdist)
              t2 := Function.update s1.t2 i (some ti)
              t := Function.update s1.t i (some ((ti + hdist) / 2)) }
        | none => { s1 with t := Function.update s1.t i (some hdist) }
      .ok (withNext s2)
    else if 0 < i ∧ s1.t i = none then
      .error (distErr (trav.getD (i - 1) default).st rcd.st)
    else .ok (withNext s1)

/-- The collection loop `for i in range(0, n)` of Calculation.traverse,
from index `i` on, with early return on the first hard error. -/
def travGo (trav : List TravRec) (free : Bool) (n : ℕ) :
    ℕ → TravSt → Except TravErr TravSt
  | i, s =>
    if h : i < n then do
      let s1 ← travStep trav free n s i
      travGo trav free n (i + 1) s1
    else .ok s
termination_by i _ => n - i
decreasing_by omega

/-- The `free` flag of Calculation.traverse (lines 239-249): a traverse
is computed as free when `forceFree` is set (the end coordinates are
discarded, lines 240-244) or when the end point has no coordinates
(lines 245-249). -/
def freeFlag (trav : List TravRec) (forceFree : Bool) : Bool :=
  forceFree || peOf (trav.getD (trav.length - 1) default).st.p = none ||
    pnOf (trav.getD (trav.length - 1) default).st.p = none

/-- Embeds the validation and measurement-collection phase of
Calculation.traverse (lines 223-327): the station-count and
start-coordinate checks, the `free` determination (a `forceFree` call
sets `endp.p.e = None` on line 243, which raises `AttributeError` when
the end station has no Point object), the collection loop, and the
final `beta[n-1] = None` reset for forced-free calls (lines 326-327).
`Except.error (.logError m)` corresponds to `return None` after
appending the message `m` to `ResultLog.resultlog_message`;
`Except.error .attributeError` corresponds to a raised
`AttributeError`. -/
def traverseValidate (trav : List TravRec) (forceFree : Bool) :
    Except TravErr TravSt :=
  let n := trav.length
  if n < 3 then .error (.logError msgFew)
  else
    let startp := (trav.getD 0 default).st
    if startp.p = none ∨ peOf startp.p = none ∨ pnOf startp.p = none then
      .error (.logError msgNoStart)
    else
      let endp := (trav.getD (n - 1) default).st
      if forceFree ∧ endp.p = none then .error .attributeError
      else do
        let s ← travGo trav (freeFlag trav forceFree) n 0 travInit
        .ok (if forceFree then { s with beta := Function.update s.beta (n - 1) none }
             else s)

/-- The disjunction of hard precondition violations enumerated for
Calculation.traverse: too few stations, missing start coordinates, a
missing adjacent-leg angle at an interior station, a missing leg
distance (neither endpoint of the leg recorded a distance), or a free
traverse (forced, or with unknown end coordinates) without a start
orientation. -/
def violatesPrecondition (trav : List TravRec) (forceFree : Bool) : Prop :=
  let n := trav.length
  n < 3
  ∨ peOf (trav.getD 0 default).st.p = none ∨ pnOf (trav.getD 0 default).st.p = none
  ∨ (∃ i, 0 < i ∧ i < n - 1 ∧
      (hzOf (trav.getD i default).obsprev = none ∨
       hzOf (trav.getD i default).obsnext = none))
  ∨ (∃ i, 0 < i ∧ i < n ∧
      dOf (trav.getD i default).obsprev = none ∧
      dOf (trav.getD (i - 1) default).obsnext = none)
  ∨ (freeFlag trav forceFree = true ∧ (trav.getD 0 default).st.ohz = none)

/-- Concrete traverse-leg data used by the compass-rule witness. -/
def travLegsExample : TravLegs :=
  ⟨3, 0, 0, 10, 0, fun _ => 1, fun _ => 4, fun _ => 0, false⟩

/-- Concrete control point used by the resection witness. -/
def resPt1 : Point := ⟨"1", 0, 0, none, none, none⟩

/-- Concrete control point used by the resection witness. -/
def resPt2 : Point := ⟨"2", 2, 0, none, none, none⟩

/-- Concrete third control point on the circle through resPt1, resPt2
and center (1,0): the dangerous-circle configuration. -/
def resPt3a : Point := ⟨"3", 1, 1, none, none, none⟩

/-- Concrete third control point for the regular (two intersection
points) resection configuration. -/
def resPt3b : Point := ⟨"3", 10, 0, none, none, none⟩

/-- Concrete station used by the resection witness. -/
def resSt : Station := ⟨⟨"S", 0, 0, none, none, none⟩, ⟨"S", 0, none⟩⟩

/-- Concrete observation used by the resection witness. -/
def resObs1 : PolarObservation := ⟨"1", 0, none⟩

/-- Concrete observation used by the resection witness. -/
def resObs2 : PolarObservation := ⟨"2", π / 2, none⟩

/-- Concrete observation (dangerous-circle case) for the resection
witness: the inscribed angle to resPt3a is `3π/4`. -/
def resObs3a : PolarObservation := ⟨"3", π / 2 + 3 * π / 4, none⟩

/-- Concrete observation (regular case) for the resection witness: the
inscribed angle to resPt3b is `π/2`. -/
def resObs3b : PolarObservation := ⟨"3", π / 2 + π / 2, none⟩

/-- Concrete matched point pairs (identity transformation) used by the
orthogonal-transformation witness. -/
def orthoExample : List (Point × Point) :=
  [(⟨"1", 0, 0, none, none, none⟩, ⟨"1", 0, 0, none, none, none⟩),
   (⟨"2", 1, 0, none, none, none⟩, ⟨"2", 1, 0, none, none, none⟩)]

/-- Concrete station used by the orientation witnesses. -/
def oriSt : Station := ⟨⟨"S", 0, 0, none, none, none⟩, ⟨"S", 0, none⟩⟩

/-- Reference list whose only control point coincides with the station
point: the degenerate zero-total-distance input. -/
def oriRefSelf : List RefEntry :=
  [⟨⟨"S", 0, 0, none, none, none⟩, ⟨"S", 0, none⟩, []⟩]

/-- Reference list with one control point one unit north of the
station. -/
def oriRefGood : List RefEntry :=
  [⟨⟨"T", 0, 1, none, none, none⟩, ⟨"T", 0, none⟩, []⟩]

/-- Concrete three-station traverse whose interior station carries no
adjacent-leg observations: a hard precondition violation.  Every
station carries a Point record. -/
def travBad : List TravRec :=
  [⟨⟨some ⟨"A", some 0, some 0⟩, some 0⟩, none, some ⟨some 0, some 10, none⟩⟩,
   ⟨⟨some ⟨"B", none, none⟩, none⟩, none, none⟩,
   ⟨⟨some ⟨"C", some 5, some 5⟩, none⟩, some ⟨some 0, some 10, none⟩, none⟩]

/-- Concrete three-station traverse whose interior station has no Point
object at all and no adjacent-leg observations: the missing-angle error
path then formats `trav_obs[1][0].p.id` and raises `AttributeError`. -/
def travCrash : List TravRec :=
  [⟨⟨some ⟨"A", some 0, some 0⟩, some 0⟩, none, some ⟨some 0, some 10, none⟩⟩,
   ⟨⟨none, none⟩, none, none⟩,
   ⟨⟨some ⟨"C", some 5, some 5⟩, none⟩, some ⟨some 0, some 10, none⟩, none⟩]

end

theorem wrapDown_le (c x : ℝ) : wrapDown c x ≤ c := by
  induction x using wrapDown.induct c with
  | case1 x h ih => rw [wrapDown, if_pos h]; exact ih
  | case2 x h => rw [wrapDown, if_neg h]; linarith

theorem wrapUp_ge (c x : ℝ) : c ≤ wrapUp c x := by
  induction x using wrapUp.induct c with
  | case1 x h ih => rw [wrapUp, if_pos h]; exact ih
  | case2 x h => rw [wrapUp, if_neg h]; linarith

theorem wrapUp_le (c b : ℝ) (hc : c + 2 * π ≤ b) :
    ∀ x : ℝ, x ≤ b → wrapUp c x ≤ b := by
  intro x
  induction x using wrapUp.induct c with
  | case1 x h ih =>
      intro _
      rw [wrapUp, if_pos h]
      exact ih (by linarith)
  | case2 x h =>
      intro hx
      rw [wrapUp, if_neg h]
      exact hx

theorem wrapDown_ex (c x : ℝ) : ∃ k : ℤ, wrapDown c x = x - 2 * π * k := by
  induction x using wrapDown.induct c with
  | case1 x h ih =>
      obtain ⟨k, hk⟩ := ih
      refine ⟨k + 1, ?_⟩
      rw [wrapDown, if_pos h, hk]
      push_cast
      ring
  | case2 x h =>
      refine ⟨0, ?_⟩
      rw [wrapDown, if_neg h]
      push_cast
      ring

theorem wrapUp_ex (c x : ℝ) : ∃ k : ℤ, wrapUp c x = x + 2 * π * k := by
  induction x using wrapUp.induct c with
  | case1 x h ih =>
      obtain ⟨k, hk⟩ := ih
      refine ⟨k + 1, ?_⟩
      rw [wrapUp, if_pos h, hk]
      push_cast
      ring
  | case2 x h =>
      refine ⟨0, ?_⟩
      rw [wrapUp, if_neg h]
      push_cast
      ring

/-- C2: orthogonal3tr is specified to seed alpha from the 4-parameter
fit, solve the 3x3 normal system and return a refined 3-element
parameter list.  In fact the code initializes `ata = []` and immediately
executes `ata[0][0] = len(plist)`, so every call raises IndexError
before any normal-equation work; the refined parameter list is never
returned. -/
theorem orthogonal3tr_always_index_error (plist : List (Point × Point)) :
    Calculation.orthogonal3tr plist =
      .error (.indexError "list index out of range") := rfl

/-- C7: intersection returns the explicit no-solution result `None`
without raising both when the two observations name different target
points and when the two bearing rays are parallel so that the line-line
intersection yields no point (in particular whenever the two absolute
bearings coincide). -/
theorem intersection_no_solution_cases (s1 s2 : Station)
    (obs1 obs2 : PolarObservation) :
    (obs1.point_id ≠ obs2.point_id →
      Calculation.intersection s1 obs1 s2 obs2 = none) ∧
    (intersecLL s1.p s2.p (s1.o.hz + obs1.hz) (s2.o.hz + obs2.hz) = none →
      Calculation.intersection s1 obs1 s2 obs2 = none) ∧
    (s1.o.hz + obs1.hz = s2.o.hz + obs2.hz →
      Calculation.intersection s1 obs1 s2 obs2 = none) := by
  have hLL : intersecLL s1.p s2.p (s1.o.hz + obs1.hz) (s2.o.hz + obs2.hz) = none →
      Calculation.intersection s1 obs1 s2 obs2 = none := by
    intro h
    unfold Calculation.intersection
    by_cases hid : obs1.point_id ≠ obs2.point_id
    · rw [if_pos hid]
    · rw [if_neg hid]
      simp only [h]
  refine ⟨fun h => ?_, hLL, fun h => ?_⟩
  · unfold Calculation.intersection
    rw [if_pos h]
  · apply hLL
    unfold intersecLL
    rw [if_pos (by rw [h]; ring)]

/-- Witness for C7 at concrete inputs: mismatched target ids, and two
stations whose absolute bearings coincide. -/
theorem intersection_no_solution_cases_witness :
    ("p" ≠ "q" ∧
      Calculation.intersection ⟨⟨"A", 0, 0, none, none, none⟩, ⟨"A", 0, none⟩⟩
        ⟨"p", 1, none⟩ ⟨⟨"B", 1, 0, none, none, none⟩, ⟨"B", 0, none⟩⟩
        ⟨"q", 1, none⟩ = none) ∧
    ((0:ℝ) + 1 = 0 + 1 ∧
      Calculation.intersection ⟨⟨"A", 0, 0, none, none, none⟩, ⟨"A", 0, none⟩⟩
        ⟨"p", 1, none⟩ ⟨⟨"B", 1, 0, none, none, none⟩, ⟨"B", 0, none⟩⟩
        ⟨"p", 1, none⟩ = none) := by
  constructor
  · exact ⟨by decide,
      (intersection_no_solution_cases _ _ _ _).1 (by decide)⟩
  · exact ⟨rfl,
      (intersection_no_solution_cases _ _ _ _).2.2 rfl⟩

/-- C1: for a traverse closed at both ends (`free = false`) with nonzero
total length, the compass-rule corrections ve, vn sum exactly to the
misclosures dde, ddn, and hence the adjusted coordinates of the last
point coincide exactly with the known end point: the linear misclosure
after adjustment is zero. -/
theorem traverse_compass_rule_closes (L : TravLegs) (hfree : L.free = false)
    (hsumt : L.sumt ≠ 0) :
    (∑ i ∈ Finset.range (L.n - 1), L.ve (i + 1)) = L.dde ∧
    (∑ i ∈ Finset.range (L.n - 1), L.vn (i + 1)) = L.ddn ∧
    L.ee (L.n - 1) = L.endE ∧ L.nn (L.n - 1) = L.endN := by
  have hve : (∑ i ∈ Finset.range (L.n - 1), L.ve (i + 1)) = L.dde := by
    have hcongr : ∀ i ∈ Finset.range (L.n - 1), L.ve (i + 1) = L.t (i + 1) * L.we := by
      intro i _
      unfold TravLegs.ve
      rw [if_neg (Nat.succ_ne_zero i)]
    rw [Finset.sum_congr rfl hcongr, ← Finset.sum_mul]
    have hs : (∑ i ∈ Finset.range (L.n - 1), L.t (i + 1)) = L.sumt := rfl
    rw [hs]
    unfold TravLegs.we
    field_simp
  have hvn : (∑ i ∈ Finset.range (L.n - 1), L.vn (i + 1)) = L.ddn := by
    have hcongr : ∀ i ∈ Finset.range (L.n - 1), L.vn (i + 1) = L.t (i + 1) * L.wn := by
      intro i _
      unfold TravLegs.vn
      rw [if_neg (Nat.succ_ne_zero i)]
    rw [Finset.sum_congr rfl hcongr, ← Finset.sum_mul]
    have hs : (∑ i ∈ Finset.range (L.n - 1), L.t (i + 1)) = L.sumt := rfl
    rw [hs]
    unfold TravLegs.wn
    field_simp
  have hee : ∀ k, L.ee k = L.startE + ∑ i ∈ Finset.range k, (L.de (i + 1) + L.ve (i + 1)) := by
    intro k
    induction k with
    | zero => simp [TravLegs.ee]
    | succ k ih =>
        rw [TravLegs.ee, ih, Finset.sum_range_succ]
        ring
  have hnn : ∀ k, L.nn k = L.startN + ∑ i ∈ Finset.range k, (L.dn (i + 1) + L.vn (i + 1)) := by
    intro k
    induction k with
    | zero => simp [TravLegs.nn]
    | succ k ih =>
        rw [TravLegs.nn, ih, Finset.sum_range_succ]
        ring
  refine ⟨hve, hvn, ?_, ?_⟩
  · rw [hee, Finset.sum_add_distrib, hve]
    have hd : L.dde = L.endE - L.startE - L.sumde := by
      unfold TravLegs.dde
      rw [hfree]
      simp
    have hs : (∑ i ∈ Finset.range (L.n - 1), L.de (i + 1)) = L.sumde := rfl
    rw [hd, hs]
    ring
  · rw [hnn, Finset.sum_add_distrib, hvn]
    have hd : L.ddn = L.endN - L.startN - L.sumdn := by
      unfold TravLegs.ddn
      rw [hfree]
      simp
    have hs : (∑ i ∈ Finset.range (L.n - 1), L.dn (i + 1)) = L.sumdn := rfl
    rw [hd, hs]
    ring

/-- Witness for C1 at a concrete closed three-station traverse with unit
legs. -/
theorem traverse_compass_rule_closes_witness :
    travLegsExample.free = false ∧ travLegsExample.sumt ≠ 0 ∧
    ((∑ i ∈ Finset.range (travLegsExample.n - 1), travLegsExample.ve (i + 1)) =
        travLegsExample.dde ∧
      (∑ i ∈ Finset.range (travLegsExample.n - 1), travLegsExample.vn (i + 1)) =
        travLegsExample.ddn ∧
      travLegsExample.ee (travLegsExample.n - 1) = travLegsExample.endE ∧
      travLegsExample.nn (travLegsExample.n - 1) = travLegsExample.endN) := by
  have hsumt : travLegsExample.sumt ≠ 0 := by
    unfold TravLegs.sumt travLegsExample
    norm_num [Finset.sum_const]
  exact ⟨rfl, hsumt, traverse_compass_rule_closes travLegsExample rfl hsumt⟩

/-- C4: when both endpoint orientations are resolved, the angular
misclosure `dbeta = (n-1)*π - Σ beta` is brought into `[-π, π]` by
adding a multiple of `2π`, every per-station correction is `dbeta / n`,
and the corrections sum exactly to `dbeta`; when either endpoint
orientation is unknown every correction is zero. -/
theorem traverse_angle_corrections (n : ℕ) (beta : ℕ → Option ℝ) (hn : n ≠ 0) :
    (beta 0 ≠ none → beta (n - 1) ≠ none →
      (dbetaOf n beta ∈ Set.Icc (-π) π ∧
       ∃ k : ℤ, dbetaOf n beta = ((n : ℝ) - 1) * π - sumbetaOf n beta + 2 * π * k)) ∧
    (∀ i, vbetaOf n beta i = dbetaOf n beta / n) ∧
    (∑ i ∈ Finset.range n, vbetaOf n beta i) = dbetaOf n beta ∧
    ((beta 0 = none ∨ beta (n - 1) = none) → ∀ i, vbetaOf n beta i = 0) := by
  have hsum : (∑ i ∈ Finset.range n, vbetaOf n beta i) = dbetaOf n beta := by
    unfold vbetaOf
    rw [Finset.sum_const, Finset.card_range, nsmul_eq_mul]
    field_simp
  refine ⟨fun h0 h1 => ?_, fun i => rfl, hsum, fun h i => ?_⟩
  · unfold dbetaOf
    rw [if_pos ⟨h0, h1⟩]
    refine ⟨⟨wrapUp_ge _ _, wrapUp_le (-π) π (by linarith) _ (wrapDown_le _ _)⟩, ?_⟩
    obtain ⟨k1, hk1⟩ := wrapDown_ex π (((n : ℝ) - 1) * π - sumbetaOf n beta)
    obtain ⟨k2, hk2⟩ := wrapUp_ex (-π) (wrapDown π (((n : ℝ) - 1) * π - sumbetaOf n beta))
    refine ⟨k2 - k1, ?_⟩
    rw [hk2, hk1]
    push_cast
    ring
  · unfold vbetaOf dbetaOf
    rw [if_neg (by tauto)]
    simp

/-- Witness for C4 at `n = 3` with all station angles present and equal
to `π`. -/
theorem traverse_angle_corrections_witness :
    (3 : ℕ) ≠ 0 ∧
    (((fun _ : ℕ => some π) 0 ≠ none → (fun _ : ℕ => some π) (3 - 1) ≠ none →
      (dbetaOf 3 (fun _ => some π) ∈ Set.Icc (-π) π ∧
       ∃ k : ℤ, dbetaOf 3 (fun _ => some π) =
         ((3 : ℝ) - 1) * π - sumbetaOf 3 (fun _ => some π) + 2 * π * k)) ∧
    (∀ i, vbetaOf 3 (fun _ => some π) i = dbetaOf 3 (fun _ => some π) / 3) ∧
    (∑ i ∈ Finset.range 3, vbetaOf 3 (fun _ => some π) i) = dbetaOf 3 (fun _ => some π) ∧
    (((fun _ : ℕ => some π) 0 = none ∨ (fun _ : ℕ => some π) (3 - 1) = none) →
      ∀ i, vbetaOf 3 (fun _ => some π) i = 0)) :=
  ⟨by decide, traverse_angle_corrections 3 (fun _ => some π) (by decide)⟩

/-- C6: when the circle-circle intersection of the two constructed
circles yields zero points (the dangerous-circle configuration),
resection raises the uncaught `IndexError` rather than returning a soft
no-solution value; when it yields exactly two points, resection returns
a resolved point carrying the station's id. -/
theorem resection_intersection_cases (st : Station) (p1 p2 p3 : Point)
    (obs1 obs2 obs3 : PolarObservation) :
    (intersecCC (circle2PA p1 p2 (obs2.hz - obs1.hz))
        (circle2PA p2 p3 (obs3.hz - obs2.hz)) = [] →
      Calculation.resection st p1 p2 p3 obs1 obs2 obs3 =
        .error (.indexError "There must be exactly two points")) ∧
    (∀ q0 q1, intersecCC (circle2PA p1 p2 (obs2.hz - obs1.hz))
        (circle2PA p2 p3 (obs3.hz - obs2.hz)) = [q0, q1] →
      ∃ pp, Calculation.resection st p1 p2 p3 obs1 obs2 obs3 = .ok pp ∧
        pp.id = st.p.id) := by
  constructor
  · intro h
    unfold Calculation.resection
    simp only [h]
  · intro q0 q1 h
    unfold Calculation.resection
    simp only [h]
    by_cases hnear : |p2.e - q0.e| < 0.1 ∧ |p2.n - q0.n| < 0.1
    · rw [if_pos hnear]
      exact ⟨_, rfl, rfl⟩
    · rw [if_neg hnear]
      exact ⟨_, rfl, rfl⟩

/-- Witness for C6: a concyclic configuration (all points on the circle
with center (1,0) and radius 1) where the constructed circles coincide
and the circle intersection is empty, and a regular configuration with
exactly two intersection points. -/
theorem resection_intersection_cases_witness :
    (intersecCC (circle2PA resPt1 resPt2 (resObs2.hz - resObs1.hz))
        (circle2PA resPt2 resPt3a (resObs3a.hz - resObs2.hz)) = [] ∧
      Calculation.resection resSt resPt1 resPt2 resPt3a resObs1 resObs2 resObs3a =
        .error (.indexError "There must be exactly two points")) ∧
    (intersecCC (circle2PA resPt1 resPt2 (resObs2.hz - resObs1.hz))
        (circle2PA resPt2 resPt3b (resObs3b.hz - resObs2.hz)) =
        [⟨"@", 2, 0, none, none, none⟩, ⟨"@", 2, 0, none, none, none⟩] ∧
      ∃ pp, Calculation.resection resSt resPt1 resPt2 resPt3b resObs1 resObs2 resObs3b =
        .ok pp ∧ pp.id = resSt.p.id) := by
  have hsqrt4 : Real.sqrt 4 = 2 := by
    rw [show (4:ℝ) = 2 ^ 2 by norm_num]
    exact Real.sqrt_sq (by norm_num)
  have hsqrt25 : Real.sqrt 25 = 5 := by
    rw [show (25:ℝ) = 5 ^ 2 by norm_num]
    exact Real.sqrt_sq (by norm_num)
  have hsqrt64 : Real.sqrt 64 = 8 := by
    rw [show (64:ℝ) = 8 ^ 2 by norm_num]
    exact Real.sqrt_sq (by norm_num)
  have hsqrt2ne : Real.sqrt 2 ≠ 0 := by positivity
  have hsin34 : Real.sin (3 * π / 4) = Real.sqrt 2 / 2 := by
    rw [show 3 * π / 4 = π - π / 4 by ring, Real.sin_pi_sub, Real.sin_pi_div_four]
  have htan34 : Real.tan (3 * π / 4) = -1 := by
    rw [show 3 * π / 4 = π - π / 4 by ring, Real.tan_pi_sub, Real.tan_pi_div_four]
  have hang1 : resObs2.hz - resObs1.hz = π / 2 := by
    simp [resObs1, resObs2]
  have hang2a : resObs3a.hz - resObs2.hz = 3 * π / 4 := by
    simp [resObs2, resObs3a]
  have hang2b : resObs3b.hz - resObs2.hz = π / 2 := by
    simp [resObs2, resObs3b]
    ring
  have hc1 : circle2PA resPt1 resPt2 (π / 2) = ⟨1, 0, 1⟩ := by
    unfold circle2PA distance2d resPt1 resPt2
    simp only [Real.sin_pi_div_two, Real.tan_pi_div_two, Circle.mk.injEq]
    norm_num [hsqrt4]
  have hc2a : circle2PA resPt2 resPt3a (3 * π / 4) = ⟨1, 0, 1⟩ := by
    unfold circle2PA distance2d resPt2 resPt3a
    simp only [hsin34, htan34, Circle.mk.injEq]
    norm_num
    rw [show (2:ℝ) * (Real.sqrt 2 / 2) = Real.sqrt 2 by ring]
    exact div_self hsqrt2ne
  have hc2b : circle2PA resPt2 resPt3b (π / 2) = ⟨6, 0, 4⟩ := by
    unfold circle2PA distance2d resPt2 resPt3b
    simp only [Real.sin_pi_div_two, Real.tan_pi_div_two, Circle.mk.injEq]
    norm_num [hsqrt64]
  have hccA : intersecCC ⟨1, 0, 1⟩ ⟨1, 0, 1⟩ = [] := by
    unfold intersecCC
    norm_num
  have hccB : intersecCC ⟨1, 0, 1⟩ ⟨6, 0, 4⟩ =
      [⟨"@", 2, 0, none, none, none⟩, ⟨"@", 2, 0, none, none, none⟩] := by
    unfold intersecCC
    norm_num [hsqrt25, Point.mk.injEq]
  have hempty : intersecCC (circle2PA resPt1 resPt2 (resObs2.hz - resObs1.hz))
      (circle2PA resPt2 resPt3a (resObs3a.hz - resObs2.hz)) = [] := by
    rw [hang1, hang2a, hc1, hc2a, hccA]
  have htwo : intersecCC (circle2PA resPt1 resPt2 (resObs2.hz - resObs1.hz))
      (circle2PA resPt2 resPt3b (resObs3b.hz - resObs2.hz)) =
      [⟨"@", 2, 0, none, none, none⟩, ⟨"@", 2, 0, none, none, none⟩] := by
    rw [hang1, hang2b, hc1, hc2b, hccB]
  refine ⟨⟨hempty, ?_⟩, ⟨htwo, ?_⟩⟩
  · exact (resection_intersection_cases resSt resPt1 resPt2 resPt3a
      resObs1 resObs2 resObs3a).1 hempty
  · exact (resection_intersection_cases resSt resPt1 resPt2 resPt3b
      resObs1 resObs2 resObs3b).2 _ _ htwo

theorem list_sum_affine {α : Type} (l : List α) (F f g : α → ℝ) (k a b : ℝ)
    (h : ∀ x ∈ l, F x = k + a * f x + b * g x) :
    (l.map F).sum = l.length * k + a * (l.map f).sum + b * (l.map g).sum := by
  induction l with
  | nil => simp
  | cons x xs ih =>
      simp only [List.map_cons, List.sum_cons, List.length_cons]
      rw [h x (List.mem_cons_self x xs),
        ih (fun y hy => h y (List.mem_cons_of_mem x hy))]
      push_cast
      ring

theorem list_sum_nonneg_zero (l : List ℝ) (hpos : ∀ x ∈ l, 0 ≤ x)
    (hsum : l.sum = 0) : ∀ x ∈ l, x = 0 := by
  induction l with
  | nil => simp
  | cons x xs ih =>
      have hx : 0 ≤ x := hpos x (List.mem_cons_self x xs)
      have hxs : 0 ≤ xs.sum :=
        List.sum_nonneg (fun y hy => hpos y (List.mem_cons_of_mem x hy))
      rw [List.sum_cons] at hsum
      intro y hy
      rcases List.mem_cons.mp hy with hy | hy
      · linarith [hy ▸ hx, hy ▸ (le_refl x)]
      · exact ih (fun z hz => hpos z (List.mem_cons_of_mem x hz)) (by linarith) y hy

/-- C9: fitting the 4-parameter orthogonal transformation to pairs
generated exactly by `E = E0 + c·e - d·n`, `N = N0 + d·e + c·n` from
source points that are not all coincident recovers exactly
`[E0, N0, c, d]`. -/
theorem orthogonal_transformation_roundtrip (plist : List (Point × Point))
    (E0 N0 c d : ℝ) (hne : plist ≠ [])
    (hgen : ∀ p ∈ plist, p.2.e = E0 + c * p.1.e - d * p.1.n ∧
      p.2.n = N0 + d * p.1.e + c * p.1.n)
    (hnc : ∃ p ∈ plist, ∃ q ∈ plist, p.1.e ≠ q.1.e ∨ p.1.n ≠ q.1.n) :
    Calculation.orthogonal_transformation plist = [E0, N0, c, d] := by
  have hnp : (plist.length : ℝ) ≠ 0 :=
    Nat.cast_ne_zero.mpr (fun h => hne (List.length_eq_zero.mp h))
  have hEs : (plist.map fun p => p.2.e).sum =
      plist.length * E0 + c * (plist.map fun p => p.1.e).sum +
        (-d) * (plist.map fun p => p.1.n).sum :=
    list_sum_affine plist _ _ _ E0 c (-d)
      (fun p hp => by rw [(hgen p hp).1]; ring)
  have hNs : (plist.map fun p => p.2.n).sum =
      plist.length * N0 + d * (plist.map fun p => p.1.e).sum +
        c * (plist.map fun p => p.1.n).sum :=
    list_sum_affine plist _ _ _ N0 d c
      (fun p hp => by rw [(hgen p hp).2])
  have hEw : (plist.map fun p => p.2.e).sum / (plist.length : ℝ) =
      E0 + c * ((plist.map fun p => p.1.e).sum / (plist.length : ℝ))
        - d * ((plist.map fun p => p.1.n).sum / (plist.length : ℝ)) := by
    rw [hEs]
    field_simp
    ring
  have hNw : (plist.map fun p => p.2.n).sum / (plist.length : ℝ) =
      N0 + d * ((plist.map fun p => p.1.e).sum / (plist.length : ℝ))
        + c * ((plist.map fun p => p.1.n).sum / (plist.length : ℝ)) := by
    rw [hNs]
    field_simp
    ring
  have hs1 : (plist.map fun p =>
      (p.1.e - (plist.map fun p => p.1.e).sum / (plist.length : ℝ)) *
        (p.2.e - (plist.map fun p => p.2.e).sum / (plist.length : ℝ)) +
      (p.1.n - (plist.map fun p => p.1.n).sum / (plist.length : ℝ)) *
        (p.2.n - (plist.map fun p => p.2.n).sum / (plist.length : ℝ))).sum =
      c * (plist.map fun p =>
      (p.1.e - (plist.map fun p => p.1.e).sum / (plist.length : ℝ)) *
        (p.1.e - (plist.map fun p => p.1.e).sum / (plist.length : ℝ)) +
      (p.1.n - (plist.map fun p => p.1.n).sum / (plist.length : ℝ)) *
        (p.1.n - (plist.map fun p => p.1.n).sum / (plist.length : ℝ))).sum := by
    rw [← List.sum_map_mul_left]
    apply congrArg
    apply List.map_congr_left
    intro p hp
    rw [(hgen p hp).1, (hgen p hp).2, hEw, hNw]
    ring
  have hs2 : (plist.map fun p =>
      (p.1.e - (plist.map fun p => p.1.e).sum / (plist.length : ℝ)) *
        (p.2.n - (plist.map fun p => p.2.n).sum / (plist.length : ℝ)) -
      (p.1.n - (plist.map fun p => p.1.n).sum / (plist.length : ℝ)) *
        (p.2.e - (plist.map fun p => p.2.e).sum / (plist.length : ℝ))).sum =
      d * (plist.map fun p =>
      (p.1.e - (plist.map fun p => p.1.e).sum / (plist.length : ℝ)) *
        (p.1.e - (plist.map fun p => p.1.e).sum / (plist.length : ℝ)) +
      (p.1.n - (plist.map fun p => p.1.n).sum / (plist.length : ℝ)) *
        (p.1.n - (plist.map fun p => p.1.n).sum / (plist.length : ℝ))).sum := by
    rw [← List.sum_map_mul_left]
    apply congrArg
    apply List.map_congr_left
    intro p hp
    rw [(hgen p hp).1, (hgen p hp).2, hEw, hNw]
    ring
  have hs3ne : (plist.map fun p =>
      (p.1.e - (plist.map fun p => p.1.e).sum / (plist.length : ℝ)) *
        (p.1.e - (plist.map fun p => p.1.e).sum / (plist.length : ℝ)) +
      (p.1.n - (plist.map fun p => p.1.n).sum / (plist.length : ℝ)) *
        (p.1.n - (plist.map fun p => p.1.n).sum / (plist.length : ℝ))).sum ≠ 0 := by
    intro h0
    have hterm : ∀ p ∈ plist,
        (p.1.e - (plist.map fun p => p.1.e).sum / (plist.length : ℝ)) *
          (p.1.e - (plist.map fun p => p.1.e).sum / (plist.length : ℝ)) +
        (p.1.n - (plist.map fun p => p.1.n).sum / (plist.length : ℝ)) *
          (p.1.n - (plist.map fun p => p.1.n).sum / (plist.length : ℝ)) = 0 := by
      intro p hp
      refine list_sum_nonneg_zero _ ?_ h0 _ (List.mem_map_of_mem _ hp)
      intro x hx
      obtain ⟨q, _, hq⟩ := List.mem_map.mp hx
      rw [← hq]
      exact add_nonneg (mul_self_nonneg _) (mul_self_nonneg _)
    have hcoord : ∀ p ∈ plist,
        p.1.e = (plist.map fun p => p.1.e).sum / (plist.length : ℝ) ∧
        p.1.n = (plist.map fun p => p.1.n).sum / (plist.length : ℝ) := by
      intro p hp
      have h := hterm p hp
      constructor
      · nlinarith [mul_self_nonneg (p.1.e - (plist.map fun p => p.1.e).sum / (plist.length : ℝ)),
          mul_self_nonneg (p.1.n - (plist.map fun p => p.1.n).sum / (plist.length : ℝ))]
      · nlinarith [mul_self_nonneg (p.1.e - (plist.map fun p => p.1.e).sum / (plist.length : ℝ)),
          mul_self_nonneg (p.1.n - (plist.map fun p => p.1.n).sum / (plist.length : ℝ))]
    obtain ⟨p, hp, q, hq, hne'⟩ := hnc
    rcases hne' with hne' | hne'
    · exact hne' ((hcoord p hp).1.trans (hcoord q hq).1.symm)
    · exact hne' ((hcoord p hp).2.trans (hcoord q hq).2.symm)
  unfold Calculation.orthogonal_transformation
  simp only []
  rw [hs1, hs2, mul_div_assoc, div_self hs3ne, mul_one, mul_div_assoc,
    div_self hs3ne, mul_one, hEs, hNs]
  simp only [List.cons.injEq, and_true]
  constructor
  · field_simp
    ring
  · field_simp

/-- Witness for C9 at an identity transformation over two distinct
source points. -/
theorem orthogonal_transformation_roundtrip_witness :
    orthoExample ≠ [] ∧
    (∀ p ∈ orthoExample, p.2.e = 0 + 1 * p.1.e - 0 * p.1.n ∧
      p.2.n = 0 + 0 * p.1.e + 1 * p.1.n) ∧
    (∃ p ∈ orthoExample, ∃ q ∈ orthoExample, p.1.e ≠ q.1.e ∨ p.1.n ≠ q.1.n) ∧
    Calculation.orthogonal_transformation orthoExample = [0, 0, 1, 0] := by
  have h1 : orthoExample ≠ [] := by simp [orthoExample]
  have h2 : ∀ p ∈ orthoExample, p.2.e = 0 + 1 * p.1.e - 0 * p.1.n ∧
      p.2.n = 0 + 0 * p.1.e + 1 * p.1.n := by
    intro p hp
    simp only [orthoExample, List.mem_cons, List.mem_singleton,
      List.not_mem_nil, or_false] at hp
    rcases hp with hp | hp <;> subst hp <;> constructor <;> norm_num
  have h3 : ∃ p ∈ orthoExample, ∃ q ∈ orthoExample,
      p.1.e ≠ q.1.e ∨ p.1.n ≠ q.1.n := by
    refine ⟨(⟨"1", 0, 0, none, none, none⟩, ⟨"1", 0, 0, none, none, none⟩),
      by simp [orthoExample],
      (⟨"2", 1, 0, none, none, none⟩, ⟨"2", 1, 0, none, none, none⟩),
      by simp [orthoExample], Or.inl ?_⟩
    norm_num
  exact ⟨h1, h2, h3,
    orthogonal_transformation_roundtrip orthoExample 0 0 1 0 h1 h2 h3⟩

theorem ori_foldl (stp : Point) (refs : List RefEntry) (a : OriAcc) :
    refs.foldl (oriStep stp) a =
      ⟨a.sd + sdOf stp refs, a.sz + szOf stp refs, a.cz + czOf stp refs,
       a.out ++ refs.map (appendWork stp)⟩ := by
  induction refs generalizing a with
  | nil => cases a; simp [sdOf, szOf, czOf]
  | cons r rs ih =>
      simp only [List.foldl_cons, List.map_cons]
      rw [ih]
      simp only [oriStep, appendWork, sdOf, szOf, czOf, List.map_cons,
        List.sum_cons, OriAcc.mk.injEq]
      refine ⟨by ring, by ring, by ring, by simp⟩

theorem atan2_div_pos (y x s : ℝ) (hs : 0 < s) :
    atan2 (y / s) (x / s) = atan2 y x := by
  unfold atan2
  have h : (⟨x / s, y / s⟩ : ℂ) = ((s⁻¹ : ℝ) : ℂ) * ⟨x, y⟩ := by
    rw [Complex.ofReal_mul', div_eq_inv_mul, div_eq_inv_mul]
  rw [h, Complex.arg_real_mul _ (inv_pos.mpr hs)]

/-- C5: when every reference point coincides with the station point the
total distance is zero and orientation fails with the explicit
total-distance-zero error; with positive total distance it returns the
distance-weighted vector-mean angle `atan2(Σ sin z·d, Σ cos z·d)`
normalized non-negative (together with the mutated reference list). -/
theorem orientation_zero_distance_and_vector_mean (st : Station)
    (refs : List RefEntry) :
    ((∀ r ∈ refs, r.p = st.p) →
      Calculation.orientation st refs = .error "Total distance is 0") ∧
    (0 < sdOf st.p refs →
      Calculation.orientation st refs =
        .ok (wrapUp 0 (atan2 (szOf st.p refs) (czOf st.p refs)),
          refs.map (appendWork st.p)) ∧
      0 ≤ wrapUp 0 (atan2 (szOf st.p refs) (czOf st.p refs))) := by
  constructor
  · intro hall
    have hsd : sdOf st.p refs = 0 := by
      apply List.sum_eq_zero
      intro x hx
      obtain ⟨r, hr, hrx⟩ := List.mem_map.mp hx
      rw [← hrx, hall r hr]
      simp [distance2d]
    unfold Calculation.orientation
    simp only [ori_foldl, zero_add, List.nil_append]
    rw [if_pos hsd]
  · intro hpos
    have hne : sdOf st.p refs ≠ 0 := ne_of_gt hpos
    constructor
    · unfold Calculation.orientation
      simp only [ori_foldl, zero_add, List.nil_append]
      rw [if_neg hne, atan2_div_pos _ _ _ hpos]
    · exact wrapUp_ge 0 _

/-- Witness for C5: a self-referencing station fails with the
total-distance-zero error, and a station with one reference one unit to
the north returns the normalized vector mean. -/
theorem orientation_zero_distance_and_vector_mean_witness :
    ((∀ r ∈ oriRefSelf, r.p = oriSt.p) ∧
      Calculation.orientation oriSt oriRefSelf = .error "Total distance is 0") ∧
    (0 < sdOf oriSt.p oriRefGood ∧
      (Calculation.orientation oriSt oriRefGood =
        .ok (wrapUp 0 (atan2 (szOf oriSt.p oriRefGood) (czOf oriSt.p oriRefGood)),
          oriRefGood.map (appendWork oriSt.p)) ∧
      0 ≤ wrapUp 0 (atan2 (szOf oriSt.p oriRefGood) (czOf oriSt.p oriRefGood)))) := by
  have hself : ∀ r ∈ oriRefSelf, r.p = oriSt.p := by
    intro r hr
    simp only [oriRefSelf, List.mem_singleton] at hr
    subst hr
    simp [oriSt]
  have hpos : 0 < sdOf oriSt.p oriRefGood := by
    simp [sdOf, oriRefGood, oriSt, distance2d]
  exact ⟨⟨hself, (orientation_zero_distance_and_vector_mean oriSt oriRefSelf).1 hself⟩,
    hpos, (orientation_zero_distance_and_vector_mean oriSt oriRefGood).2 hpos⟩

theorem sdOf_map_appendWork (stp : Point) (refs : List RefEntry) :
    sdOf stp (refs.map (appendWork stp)) = sdOf stp refs := by
  simp only [sdOf, List.map_map]
  rfl

theorem orientation_ok_out (st : Station) (refs : List RefEntry) (za : ℝ)
    (refs₁ : List RefEntry)
    (hok : Calculation.orientation st refs = .ok (za, refs₁)) :
    sdOf st.p refs ≠ 0 ∧ refs₁ = refs.map (appendWork st.p) := by
  unfold Calculation.orientation at hok
  simp only [ori_foldl, zero_add, List.nil_append] at hok
  by_cases hsd : sdOf st.p refs = 0
  · rw [if_pos hsd] at hok
    exact absurd hok (by simp)
  · rw [if_neg hsd] at hok
    have h := Except.ok.inj hok
    exact ⟨hsd, (congrArg Prod.snd h).symm⟩

/-- C10: a successful orientation call appends four working values (the
2D distance and three angles z, r, b) to every caller-supplied
`[point, observation]` list, growing it from 2 to 6 cells; feeding the
mutated list into a second orientation call grows every list to 10
cells, so the second call does not reproduce the first call's
post-state. -/
theorem orientation_mutates_ref_list (st : Station) (refs : List RefEntry)
    (za : ℝ) (refs₁ : List RefEntry)
    (h0 : ∀ r ∈ refs, r.extra = [])
    (hok : Calculation.orientation st refs = .ok (za, refs₁)) :
    (∀ q ∈ refs₁, q.cells.length = 6) ∧
    (∀ q ∈ refs₁, ∃ dv zv rv bv,
      q.extra = [Cell.num dv, Cell.ang zv, Cell.ang rv, Cell.ang bv]) ∧
    (∃ za₂ refs₂, Calculation.orientation st refs₁ = .ok (za₂, refs₂) ∧
      ∀ q ∈ refs₂, q.cells.length = 10) := by
  obtain ⟨hsd, hout⟩ := orientation_ok_out st refs za refs₁ hok
  subst hout
  refine ⟨?_, ?_, ?_⟩
  · intro q hq
    obtain ⟨r, hr, hrq⟩ := List.mem_map.mp hq
    rw [← hrq]
    simp [appendWork, RefEntry.cells, h0 r hr]
  · intro q hq
    obtain ⟨r, hr, hrq⟩ := List.mem_map.mp hq
    refine ⟨distance2d st.p r.p, zOf st.p r, r.o.hz, bearing st.p r.p, ?_⟩
    rw [← hrq]
    simp [appendWork, h0 r hr]
  · have hsd₁ : sdOf st.p (refs.map (appendWork st.p)) ≠ 0 := by
      rw [sdOf_map_appendWork]
      exact hsd
    refine ⟨wrapUp 0 (atan2
        (szOf st.p (refs.map (appendWork st.p)) / sdOf st.p (refs.map (appendWork st.p)))
        (czOf st.p (refs.map (appendWork st.p)) / sdOf st.p (refs.map (appendWork st.p)))),
      (refs.map (appendWork st.p)).map (appendWork st.p), ?_, ?_⟩
    · unfold Calculation.orientation
      simp only [ori_foldl, zero_add, List.nil_append]
      rw [if_neg hsd₁]
    · intro q hq
      obtain ⟨r, hr, hrq⟩ := List.mem_map.mp hq
      obtain ⟨r0, hr0, hr0r⟩ := List.mem_map.mp hr
      rw [← hrq, ← hr0r]
      simp [appendWork, RefEntry.cells, h0 r0 hr0]

/-- Witness for C10 at the concrete one-reference input: the first call
succeeds and the conclusions of the mutation theorem hold for it. -/
theorem orientation_mutates_ref_list_witness :
    ∃ za refs₁, Calculation.orientation oriSt oriRefGood = .ok (za, refs₁) ∧
      (∀ r ∈ oriRefGood, r.extra = []) ∧
      ((∀ q ∈ refs₁, q.cells.length = 6) ∧
       (∀ q ∈ refs₁, ∃ dv zv rv bv,
         q.extra = [Cell.num dv, Cell.ang zv, Cell.ang rv, Cell.ang bv]) ∧
       (∃ za₂ refs₂, Calculation.orientation oriSt refs₁ = .ok (za₂, refs₂) ∧
         ∀ q ∈ refs₂, q.cells.length = 10)) := by
  have hsd : sdOf oriSt.p oriRefGood ≠ 0 := by
    simp [sdOf, oriRefGood, oriSt, distance2d]
  have hok : Calculation.orientation oriSt oriRefGood =
      .ok (wrapUp 0 (atan2 (szOf oriSt.p oriRefGood / sdOf oriSt.p oriRefGood)
          (czOf oriSt.p oriRefGood / sdOf oriSt.p oriRefGood)),
        oriRefGood.map (appendWork oriSt.p)) := by
    unfold Calculation.orientation
    simp only [ori_foldl, zero_add, List.nil_append]
    rw [if_neg hsd]
  have hextra : ∀ r ∈ oriRefGood, r.extra = [] := by
    intro r hr
    simp only [oriRefGood, List.mem_singleton] at hr
    subst hr
    rfl
  exact ⟨_, _, hok, hextra,
    orientation_mutates_ref_list oriSt oriRefGood _ _ hextra hok⟩

theorem getD_replicate_zero (n j : ℕ) : (List.replicate n (0:ℝ)).getD j 0 = 0 := by
  rcases lt_or_ge j n with h | h
  · rw [List.getD_eq_getElem?_getD, List.getElem?_replicate, if_pos h]
    rfl
  · rw [List.getD_eq_getElem?_getD, List.getElem?_eq_none (by simpa using h)]
    rfl

theorem getD_set_zero (l : List ℝ) (hl : ∀ j, l.getD j 0 = 0) :
    ∀ (i : ℕ) (v : ℝ), v = 0 → ∀ j, (l.set i v).getD j 0 = 0 := by
  induction l with
  | nil => intro i v _ j; rfl
  | cons x xs ih =>
      intro i v hv j
      cases i with
      | zero =>
          cases j with
          | zero => simpa [List.set] using hv
          | succ j => simpa [List.set] using hl (j + 1)
      | succ i =>
          cases j with
          | zero => simpa [List.set] using hl 0
          | succ j =>
              simpa [List.set] using
                ih (fun k => by simpa using hl (k + 1)) i v hv j

theorem list_eq_replicate_of (l : List ℝ) (hl : ∀ j, l.getD j 0 = 0) :
    l = List.replicate l.length 0 := by
  induction l with
  | nil => rfl
  | cons x xs ih =>
      have hx : x = 0 := by simpa using hl 0
      have hxs : xs = List.replicate xs.length 0 :=
        ih (fun k => by simpa using hl (k + 1))
      rw [List.length_cons, List.replicate_succ, hx, ← hxs]

theorem foldl_add_eq_sum {α : Type} (l : List α) (f : α → ℝ) :
    ∀ init : ℝ, l.foldl (fun s x => s + f x) init = init + (l.map f).sum := by
  induction l with
  | nil => intro init; simp
  | cons x xs ih =>
      intro init
      simp only [List.foldl_cons, List.map_cons, List.sum_cons, ih]
      ring

theorem list_sum_map_sub_const {α : Type} (l : List α) (f : α → ℝ) (c : ℝ) :
    (l.map fun x => f x - c).sum = (l.map f).sum - l.length * c := by
  induction l with
  | nil => simp
  | cons x xs ih =>
      simp only [List.map_cons, List.sum_cons, List.length_cons, ih]
      push_cast
      ring

theorem centered_sum_zero {α : Type} (l : List α) (f : α → ℝ) :
    (l.map fun x => f x - (l.map f).sum / (l.length : ℝ)).sum = 0 := by
  rcases eq_or_ne l [] with h | h
  · subst h; simp
  · have hlen : (l.length : ℝ) ≠ 0 :=
      Nat.cast_ne_zero.mpr (fun h0 => h (List.length_eq_zero.mp h0))
    rw [list_sum_map_sub_const]
    field_simp

theorem getD_range_map (l : List ℝ) :
    (List.range l.length).map (fun k => l.getD k 0) = l := by
  induction l with
  | nil => rfl
  | cons x xs ih =>
      rw [List.length_cons, List.range_succ_eq_map, List.map_cons, List.map_map]
      have htail : (List.range xs.length).map ((fun k => (x :: xs).getD k 0) ∘ Nat.succ)
          = (List.range xs.length).map (fun k => xs.getD k 0) := by
        apply List.map_congr_left
        intro k _
        rfl
      rw [htail, ih]
      rfl

theorem list_sum_mul_left (c : ℝ) (l : List ℝ) :
    (l.map fun x => c * x).sum = c * l.sum := by
  induction l with
  | nil => simp
  | cons x xs ih =>
      simp only [List.map_cons, List.sum_cons, ih]
      ring

theorem inner_sum_eq (np : ℕ) (c : ℝ) (l : List ℝ) (hl : l.length = np) :
    (List.range np).foldl (fun s k => s + c * l.getD k 0) 0 = c * l.sum := by
  subst hl
  rw [foldl_add_eq_sum, zero_add]
  have h1 : (List.range l.length).map (fun k => c * l.getD k 0) =
      ((List.range l.length).map fun k => l.getD k 0).map (fun x => c * x) := by
    rw [List.map_map]
    rfl
  rw [h1, getD_range_map, list_sum_mul_left]

theorem foldl_set_props (g : ℕ → ℝ) (hg : ∀ i, g i = 0) :
    ∀ (idxs : List ℕ) (acc : List ℝ), (∀ j, acc.getD j 0 = 0) →
      (∀ j, (idxs.foldl (fun a i => a.set i (g i)) acc).getD j 0 = 0) ∧
      (idxs.foldl (fun a i => a.set i (g i)) acc).length = acc.length := by
  intro idxs
  induction idxs with
  | nil => intro acc hacc; exact ⟨hacc, rfl⟩
  | cons i is ih =>
      intro acc hacc
      simp only [List.foldl_cons]
      obtain ⟨hZ, hlen⟩ := ih (acc.set i (g i)) (getD_set_zero acc hacc i _ (hg i))
      exact ⟨hZ, by rw [hlen, List.length_set]⟩

theorem gauss_inner_props (_size i : ℕ) (q : ℝ) :
    ∀ (idxs : List ℕ) (st : List ℝ × List ℝ), (∀ j, st.2.getD j 0 = 0) →
      (∀ j, (idxs.foldl
        (fun (rb : List ℝ × List ℝ) j =>
          if j = i then rb
          else
            let r := rb.1
            let b := rb.2
            let t := r.getD i 0
            let r := r.mapIdx fun k x => if k = i then -t * q else x - t * x
            (r, b.set j (b.getD j 0 - t * b.getD i 0))) st).2.getD j 0 = 0) ∧
      ((idxs.foldl
        (fun (rb : List ℝ × List ℝ) j =>
          if j = i then rb
          else
            let r := rb.1
            let b := rb.2
            let t := r.getD i 0
            let r := r.mapIdx fun k x => if k = i then -t * q else x - t * x
            (r, b.set j (b.getD j 0 - t * b.getD i 0))) st).2.length = st.2.length) := by
  intro idxs
  induction idxs with
  | nil => intro st hst; exact ⟨hst, rfl⟩
  | cons j js ih =>
      intro st hst
      simp only [List.foldl_cons]
      by_cases hj : j = i
      · rw [if_pos hj]
        exact ih st hst
      · rw [if_neg hj]
        have hval : st.2.getD j 0 - st.1.getD i 0 * st.2.getD i 0 = 0 := by
          rw [hst j, hst i]
          ring
        have hpair := ih
          (st.1.mapIdx (fun k x =>
            if k = i then -(st.1.getD i 0) * q else x - st.1.getD i 0 * x),
           st.2.set j (st.2.getD j 0 - st.1.getD i 0 * st.2.getD i 0))
          (getD_set_zero st.2 hst j _ hval)
        exact ⟨hpair.1, hpair.2.trans (List.length_set _ _ _)⟩

theorem gaussAliasedPivot_snd (size i : ℕ) (st : List ℝ × List ℝ)
    (hst : ∀ j, st.2.getD j 0 = 0) :
    ∀ st', gaussAliasedPivot size st i = .ok st' →
      (∀ j, st'.2.getD j 0 = 0) ∧ st'.2.length = st.2.length := by
  intro st' h
  unfold gaussAliasedPivot at h
  simp only [] at h
  by_cases hr : st.1.getD i 0 = 0
  · rw [if_pos hr] at h
    exact absurd h (by simp)
  · rw [if_neg hr] at h
    have hst2 := Except.ok.inj h
    have hb : ∀ j, (st.2.set i (1 / st.1.getD i 0 * st.2.getD i 0)).getD j 0 = 0 :=
      getD_set_zero st.2 hst i _ (by rw [hst i]; ring)
    obtain ⟨hZ, hlen⟩ := gauss_inner_props size i (1 / st.1.getD i 0)
      (List.range size) (_, st.2.set i (1 / st.1.getD i 0 * st.2.getD i 0)) hb
    rw [← hst2]
    exact ⟨hZ, by rw [hlen]; exact List.length_set _ _ _⟩

theorem gauss_foldlM_snd (size : ℕ) :
    ∀ (idxs : List ℕ) (st : List ℝ × List ℝ), (∀ j, st.2.getD j 0 = 0) →
      ∀ rb, idxs.foldlM (gaussAliasedPivot size) st = .ok rb →
        (∀ j, rb.2.getD j 0 = 0) ∧ rb.2.length = st.2.length := by
  intro idxs
  induction idxs with
  | nil =>
      intro st hst rb h
      simp only [List.foldlM_nil] at h
      replace h : Except.ok st = Except.ok rb := h
      obtain rfl := Except.ok.inj h
      exact ⟨hst, rfl⟩
  | cons i is ih =>
      intro st hst rb h
      rw [List.foldlM_cons] at h
      cases hp : gaussAliasedPivot size st i with
      | error e =>
          rw [hp] at h
          exact absurd h (by simp [Bind.bind, Except.bind])
      | ok st1 =>
          rw [hp] at h
          replace h : is.foldlM (gaussAliasedPivot size) st1 = .ok rb := h
          obtain ⟨hZ1, hlen1⟩ := gaussAliasedPivot_snd size i st hst st1 hp
          obtain ⟨hZr, hlenr⟩ := ih st1 hZ1 rb h
          exact ⟨hZr, hlenr.trans hlen1⟩

theorem gaussAliased_ok_snd (size : ℕ) (row b : List ℝ)
    (hb : ∀ j, b.getD j 0 = 0) :
    ∀ rb, gaussAliased size row b = .ok rb →
      (∀ j, rb.2.getD j 0 = 0) ∧ rb.2.length = b.length := by
  intro rb h
  exact gauss_foldlM_snd size (List.range size) (row, b) hb rb h

theorem poly_axis_zero (m np : ℕ) (arow : List ℝ) (l : List ℝ)
    (hl : l.length = np) (hsum : l.sum = 0) :
    ∀ rb, gaussAliased m
      ((List.range m).foldl (fun (acc : List ℝ) i =>
        (List.range m).foldl (fun (acc : List ℝ) j =>
          if i ≤ j then
            let s := (List.range np).foldl
              (fun s _ => s + arow.getD i 0 * arow.getD j 0) 0
            (acc.set j s).set i s
          else acc) acc) (List.replicate m 0))
      ((List.range m).foldl (fun (acc : List ℝ) i =>
        acc.set i ((List.range np).foldl
          (fun s k => s + arow.getD i 0 * l.getD k 0) 0)) (List.replicate m 0)) =
        .ok rb →
      rb.2 = List.replicate m 0 := by
  intro rb h
  have hg : ∀ i : ℕ, (List.range np).foldl
      (fun s k => s + arow.getD i 0 * l.getD k 0) 0 = 0 := by
    intro i
    rw [inner_sum_eq np (arow.getD i 0) l hl, hsum, mul_zero]
  obtain ⟨hZn1, hlenn1⟩ := foldl_set_props _ hg (List.range m)
    (List.replicate m 0) (getD_replicate_zero m)
  obtain ⟨hZr, hlenr⟩ := gaussAliased_ok_snd m _ _ hZn1 rb h
  calc rb.2 = List.replicate rb.2.length 0 := list_eq_replicate_of rb.2 hZr
    _ = List.replicate m 0 := by
        rw [hlenr, hlenn1, List.length_replicate]

theorem poly_bind_shape (X Y : Except PyErr (List ℝ × List ℝ)) (c : List ℝ)
    (m : ℕ)
    (hX : ∀ rb, X = .ok rb → rb.2 = List.replicate m 0)
    (hY : ∀ rb, Y = .ok rb → rb.2 = List.replicate m 0) :
    ((do
        let g1 ← X
        let g2 ← Y
        Except.ok (g1.2, g2.2, c) :
          Except PyErr (List ℝ × List ℝ × List ℝ)).map (fun g => g.1) =
      (do
        let g1 ← X
        let g2 ← Y
        Except.ok (g1.2, g2.2, c) :
          Except PyErr (List ℝ × List ℝ × List ℝ)).map
        (fun _ => List.replicate m (0:ℝ))) ∧
    ((do
        let g1 ← X
        let g2 ← Y
        Except.ok (g1.2, g2.2, c) :
          Except PyErr (List ℝ × List ℝ × List ℝ)).map (fun g => g.2.1) =
      (do
        let g1 ← X
        let g2 ← Y
        Except.ok (g1.2, g2.2, c) :
          Except PyErr (List ℝ × List ℝ × List ℝ)).map
        (fun _ => List.replicate m (0:ℝ))) := by
  rcases X with e | rb1
  · exact ⟨rfl, rfl⟩
  · rcases Y with e | rb2
    · exact ⟨rfl, rfl⟩
    · constructor
      · show Except.ok rb1.2 = Except.ok (List.replicate m (0:ℝ))
        rw [hX rb1 rfl]
      · show Except.ok rb2.2 = Except.ok (List.replicate m (0:ℝ))
        rw [hY rb2 rfl]

/-- C3: polynomial_transformation is specified to fill each design
matrix row with the monomials of its own point, so that the
normal-equation solution reproduces the generating coefficients.  In
fact
`a1 = [[0.0]*m]*np` and `N1 = [[0.0]*m]*m` alias all matrix rows to one
shared list, the centroid-reduced right-hand sides `n1`, `n2` come out
identically zero, and the solver consequently can only ever return
all-zero coefficient vectors (or fail): the fitted coefficients never
reproduce a non-trivial generating polynomial. -/
theorem polynomial_transformation_solutions_zero
    (plist : List (Point × Point)) (degree : ℕ) :
    ((Calculation.polynomial_transformation plist degree).map (fun g => g.1) =
      (Calculation.polynomial_transformation plist degree).map
        (fun _ => List.replicate ((degree + 1) * (degree + 2) / 2) (0:ℝ))) ∧
    ((Calculation.polynomial_transformation plist degree).map (fun g => g.2.1) =
      (Calculation.polynomial_transformation plist degree).map
        (fun _ => List.replicate ((degree + 1) * (degree + 2) / 2) (0:ℝ))) := by
  unfold Calculation.polynomial_transformation
  simp only []
  refine poly_bind_shape _ _ _ _ ?_ ?_
  · exact fun rb h => poly_axis_zero _ _ _ _ (List.length_map _ _)
      (centered_sum_zero plist (fun p => p.2.e)) rb h
  · exact fun rb h => poly_axis_zero _ _ _ _ (List.length_map _ _)
      (centered_sum_zero plist (fun p => p.2.n)) rb h

theorem travGo_step (trav : List TravRec) (free : Bool) (n k : ℕ) (s sf : TravSt)
    (h : travGo trav free n k s = .ok sf) (hk : k < n) :
    ∃ s', travStep trav free n s k = .ok s' ∧
      travGo trav free n (k + 1) s' = .ok sf := by
  rw [travGo, dif_pos hk] at h
  cases hs : travStep trav free n s k with
  | error e =>
      rw [hs] at h
      exact absurd h (by simp [Bind.bind, Except.bind])
  | ok s' =>
      rw [hs] at h
      exact ⟨s', rfl, h⟩

theorem travStep_facts (trav : List TravRec) (free : Bool) (n : ℕ) (s : TravSt)
    (i : ℕ) (s' : TravSt) (h : travStep trav free n s i = .ok s') :
    (¬(i = 0 ∧ (trav.getD i default).st.ohz = none ∧ free = true)) ∧
    (¬(0 < i ∧ i < n - 1 ∧ (hzOf (trav.getD i default).obsprev = none ∨
        hzOf (trav.getD i default).obsnext = none))) ∧
    (0 < i → s.t i = none → dOf (trav.getD i default).obsprev ≠ none) ∧
    (∀ j, i + 1 ≤ j → dOf (trav.getD i default).obsnext = none →
      s'.t j = s.t j) ∧
    (∀ j, i + 2 ≤ j → s'.t j = s.t j) := by
  unfold travStep at h
  simp only [] at h
  by_cases h1 : i = 0 ∧ (trav.getD i default).st.ohz = none ∧ free = true
  · rw [if_pos h1] at h
    exact absurd h (by simp)
  rw [if_neg h1] at h
  by_cases h2 : 0 < i ∧ i < n - 1 ∧ (hzOf (trav.getD i default).obsprev = none ∨
      hzOf (trav.getD i default).obsnext = none)
  · rw [if_pos h2] at h
    exact absurd h (by simp)
  rw [if_neg h2] at h
  refine ⟨h1, h2, ?_⟩
  by_cases h3 : dOf (trav.getD i default).obsprev ≠ none
  · rw [if_pos h3] at h
    cases hti : s.t i with
    | some ti =>
        rw [hti] at h
        simp only [] at h
        obtain rfl := Except.ok.inj h
        refine ⟨fun _ _ => h3, ?_, ?_⟩
        · intro j hj hnone
          by_cases hdn : dOf (trav.getD i default).obsnext ≠ none
          · exact absurd hnone (by simpa using hdn)
          · rw [if_neg hdn]
            exact Function.update_noteq (by omega) _ _
        · intro j hj
          by_cases hdn : dOf (trav.getD i default).obsnext ≠ none
          · rw [if_pos hdn]
            simp only []
            rw [Function.update_noteq (by omega : j ≠ i + 1)]
            exact Function.update_noteq (by omega) _ _
          · rw [if_neg hdn]
            exact Function.update_noteq (by omega) _ _
    | none =>
        rw [hti] at h
        simp only [] at h
        obtain rfl := Except.ok.inj h
        refine ⟨fun _ _ => h3, ?_, ?_⟩
        · intro j hj hnone
          by_cases hdn : dOf (trav.getD i default).obsnext ≠ none
          · exact absurd hnone (by simpa using hdn)
          · rw [if_neg hdn]
            exact Function.update_noteq (by omega) _ _
        · intro j hj
          by_cases hdn : dOf (trav.getD i default).obsnext ≠ none
          · rw [if_pos hdn]
            simp only []
            rw [Function.update_noteq (by omega : j ≠ i + 1)]
            exact Function.update_noteq (by omega) _ _
          · rw [if_neg hdn]
            exact Function.update_noteq (by omega) _ _
  · rw [if_neg h3] at h
    by_cases h4 : 0 < i ∧ s.t i = none
    · rw [if_pos h4] at h
      exact absurd h (by simp)
    · rw [if_neg h4] at h
      obtain rfl := Except.ok.inj h
      refine ⟨fun hi hti => absurd ⟨hi, hti⟩ h4, ?_, ?_⟩
      · intro j hj hnone
        by_cases hdn : dOf (trav.getD i default).obsnext ≠ none
        · exact absurd hnone (by simpa using hdn)
        · rw [if_neg hdn]
      · intro j hj
        by_cases hdn : dOf (trav.getD i default).obsnext ≠ none
        · rw [if_pos hdn]
          simp only []
          exact Function.update_noteq (by omega) _ _
        · rw [if_neg hdn]

theorem travGo_reach (trav : List TravRec) (free : Bool) (n : ℕ) :
    ∀ k s sf, travGo trav free n k s = .ok sf →
      ∀ j, k ≤ j → j < n → ∃ sj sj', travStep trav free n sj j = .ok sj' := by
  suffices H : ∀ d k s sf, travGo trav free n k s = .ok sf →
      ∀ j, k ≤ j → j - k = d → j < n →
        ∃ sj sj', travStep trav free n sj j = .ok sj' by
    exact fun k s sf h j hkj hjn => H (j - k) k s sf h j hkj rfl hjn
  intro d
  induction d with
  | zero =>
      intro k s sf h j hkj hd hjn
      have hjk : j = k := by omega
      subst hjk
      obtain ⟨s', hs', _⟩ := travGo_step trav free n j s sf h hjn
      exact ⟨s, s', hs'⟩
  | succ d ih =>
      intro k s sf h j hkj hd hjn
      have hkn : k < n := by omega
      obtain ⟨s', _, hgo⟩ := travGo_step trav free n k s sf h hkn
      exact ih (k + 1) s' sf hgo j (by omega) (by omega) hjn

theorem travGo_dist (trav : List TravRec) (free : Bool) (n : ℕ) :
    ∀ d k j s sf, j - k = d → travGo trav free n k s = .ok sf →
      k + 1 ≤ j → j < n → s.t j = none →
      dOf (trav.getD j default).obsprev = none →
      dOf (trav.getD (j - 1) default).obsnext = none → False := by
  intro d
  induction d with
  | zero =>
      intro k j s sf hd hgo hkj hjn htj hdp hdn
      omega
  | succ d ih =>
      intro k j s sf hd hgo hkj hjn htj hdp hdn
      have hkn : k < n := by omega
      obtain ⟨s', hstep, hgo'⟩ := travGo_step trav free n k s sf hgo hkn
      have A := travStep_facts trav free n s k s' hstep
      by_cases hkj1 : k + 1 = j
      · obtain ⟨s'', hstep', _⟩ :=
          travGo_step trav free n (k + 1) s' sf hgo' (by omega)
        have A' := travStep_facts trav free n s' (k + 1) s'' hstep'
        have hdnk : dOf (trav.getD k default).obsnext = none := by
          have hjk : j - 1 = k := by omega
          rw [← hjk]
          exact hdn
        have hs' : s'.t j = none := by
          rw [A.2.2.2.1 j (by omega) hdnk]
          exact htj
        have hcontra := A'.2.2.1 (by omega : 0 < k + 1)
          (by rw [hkj1]; exact hs')
        rw [hkj1] at hcontra
        exact hcontra hdp
      · have hs' : s'.t j = s.t j := A.2.2.2.2 j (by omega)
        exact ih (k + 1) j s' sf (by omega) hgo' (by omega) hjn
          (by rw [hs']; exact htj) hdp hdn

theorem travStep_err (trav : List TravRec) (free : Bool) (n : ℕ) (s : TravSt)
    (i : ℕ) (e : TravErr) (h : travStep trav free n s i = .error e)
    (hp : (trav.getD i default).st.p ≠ none)
    (hpPrev : (trav.getD (i - 1) default).st.p ≠ none) :
    ∃ m, e = .logError m := by
  unfold travStep at h
  simp only [] at h
  by_cases h1 : i = 0 ∧ (trav.getD i default).st.ohz = none ∧ free = true
  · rw [if_pos h1] at h
    exact ⟨msgNoOrient, (Except.error.inj h).symm⟩
  rw [if_neg h1] at h
  by_cases h2 : 0 < i ∧ i < n - 1 ∧ (hzOf (trav.getD i default).obsprev = none ∨
      hzOf (trav.getD i default).obsnext = none)
  · rw [if_pos h2] at h
    obtain ⟨p, hpp⟩ := Option.ne_none_iff_exists'.mp hp
    refine ⟨msgNoAngle p.id, ?_⟩
    rw [show e = angleErr (trav.getD i default).st from (Except.error.inj h).symm]
    unfold angleErr
    rw [hpp]
  rw [if_neg h2] at h
  by_cases h3 : dOf (trav.getD i default).obsprev ≠ none
  · rw [if_pos h3] at h
    cases hti : s.t i with
    | some ti =>
        rw [hti] at h
        exact absurd h (by simp)
    | none =>
        rw [hti] at h
        exact absurd h (by simp)
  · rw [if_neg h3] at h
    by_cases h4 : 0 < i ∧ s.t i = none
    · rw [if_pos h4] at h
      obtain ⟨p0, hp0⟩ := Option.ne_none_iff_exists'.mp hpPrev
      obtain ⟨p1, hp1⟩ := Option.ne_none_iff_exists'.mp hp
      refine ⟨msgNoDist p0.id p1.id, ?_⟩
      rw [show e = distErr (trav.getD (i - 1) default).st (trav.getD i default).st
        from (Except.error.inj h).symm]
      unfold distErr
      rw [hp0, hp1]
    · rw [if_neg h4] at h
      exact absurd h (by simp)

theorem travGo_err (trav : List TravRec) (free : Bool) (n : ℕ)
    (hpts : ∀ i, i < n → (trav.getD i default).st.p ≠ none) :
    ∀ d k s e, n - k = d → travGo trav free n k s = .error e →
      ∃ m, e = .logError m := by
  intro d
  induction d with
  | zero =>
      intro k s e hd h
      rw [travGo, dif_neg (by omega)] at h
      exact absurd h (by simp)
  | succ d ih =>
      intro k s e hd h
      have hk : k < n := by omega
      rw [travGo, dif_pos hk] at h
      cases hs : travStep trav free n s k with
      | error ek =>
          rw [hs] at h
          replace h : (Except.error ek : Except TravErr TravSt) = .error e := h
          obtain rfl := Except.error.inj h
          exact travStep_err trav free n s k ek hs (hpts k hk)
            (hpts (k - 1) (by omega))
      | ok s1 =>
          rw [hs] at h
          replace h : travGo trav free n (k + 1) s1 = .error e := h
          exact ih (k + 1) s1 e (by omega) h

/-- C8 (amended): every traverse input violating a hard precondition
(fewer than 3 stations, missing start coordinates, a missing
adjacent-leg angle at an interior station, a missing leg distance, or a
free traverse without a start orientation) makes the validation phase
of Calculation.traverse return no result carrying a descriptive log
message instead of raising, provided every station record carries a
Point object; without that proviso the missing-angle and
missing-distance error paths can raise AttributeError while formatting
their messages (see the counterexample below). -/
theorem traverse_precondition_errors (trav : List TravRec) (forceFree : Bool)
    (hpts : ∀ i, i < trav.length → (trav.getD i default).st.p ≠ none)
    (hviol : violatesPrecondition trav forceFree) :
    ∃ m, traverseValidate trav forceFree = .error (.logError m) := by
  unfold traverseValidate
  by_cases hn : trav.length < 3
  · rw [if_pos hn]
    exact ⟨msgFew, rfl⟩
  rw [if_neg hn]
  by_cases hstart : (trav.getD 0 default).st.p = none ∨
      peOf (trav.getD 0 default).st.p = none ∨
      pnOf (trav.getD 0 default).st.p = none
  · rw [if_pos hstart]
    exact ⟨msgNoStart, rfl⟩
  rw [if_neg hstart]
  have hend : ¬(forceFree = true ∧
      (trav.getD (trav.length - 1) default).st.p = none) :=
    fun hc => hpts (trav.length - 1) (by omega) hc.2
  rw [if_neg hend]
  cases hgo : travGo trav (freeFlag trav forceFree) trav.length 0 travInit with
  | error e =>
      obtain ⟨m, rfl⟩ := travGo_err trav (freeFlag trav forceFree) trav.length
        hpts (trav.length - 0) 0 travInit e rfl hgo
      exact ⟨m, rfl⟩
  | ok sf =>
      exfalso
      unfold violatesPrecondition at hviol
      simp only [] at hviol
      rcases hviol with h | h | h | h | h | h
      · exact hn h
      · exact hstart (Or.inr (Or.inl h))
      · exact hstart (Or.inr (Or.inr h))
      · obtain ⟨i, hi0, hin, hmiss⟩ := h
        obtain ⟨sj, sj', hstep⟩ := travGo_reach trav (freeFlag trav forceFree)
          trav.length 0 travInit sf hgo i (Nat.zero_le i) (by omega)
        exact (travStep_facts trav (freeFlag trav forceFree) trav.length sj i
          sj' hstep).2.1 ⟨hi0, hin, hmiss⟩
      · obtain ⟨i, hi0, hin, hdp, hdn⟩ := h
        exact travGo_dist trav (freeFlag trav forceFree) trav.length (i - 0) 0 i
          travInit sf rfl hgo (by omega) hin rfl hdp hdn
      · obtain ⟨hfr, hohz⟩ := h
        obtain ⟨s', hstep, _⟩ := travGo_step trav (freeFlag trav forceFree)
          trav.length 0 travInit sf hgo (by omega)
        exact (travStep_facts trav (freeFlag trav forceFree) trav.length
          travInit 0 s' hstep).1 ⟨rfl, hohz, hfr⟩

/-- Witness for C8 (amended): a concrete three-station traverse, every
station carrying a Point record, whose interior station has no
adjacent-leg observations: the validation phase fails with a log
message. -/
theorem traverse_precondition_errors_witness :
    (∀ i, i < travBad.length → (travBad.getD i default).st.p ≠ none) ∧
    violatesPrecondition travBad false ∧
    ∃ m, traverseValidate travBad false = .error (.logError m) := by
  have hpts : ∀ i, i < travBad.length → (travBad.getD i default).st.p ≠ none := by
    intro i hi
    rw [show travBad.length = 3 from rfl] at hi
    interval_cases i <;> simp [travBad]
  have hv : violatesPrecondition travBad false := by
    unfold violatesPrecondition
    refine Or.inr (Or.inr (Or.inr (Or.inl ⟨1, by norm_num, ?_, Or.inl rfl⟩)))
    rw [show travBad.length = 3 from rfl]
    norm_num
  exact ⟨hpts, hv, traverse_precondition_errors travBad false hpts hv⟩

/-- Counterexample to C8 as stated: travCrash violates the
missing-interior-angle precondition (and its interior station has no
Point object, the repository's normal shape for interior stations), yet
the validation phase of Calculation.traverse raises AttributeError from
the unguarded `trav_obs[i][0].p.id` on line 284 instead of returning
None with a log message. -/
theorem traverse_crash_counterexample :
    violatesPrecondition travCrash false ∧
    traverseValidate travCrash false = .error TravErr.attributeError := by
  constructor
  · unfold violatesPrecondition
    refine Or.inr (Or.inr (Or.inr (Or.inl ⟨1, by norm_num, ?_, Or.inl rfl⟩)))
    rw [show travCrash.length = 3 from rfl]
    norm_num
  · have hstep1 : ∀ (s : TravSt) (fr : Bool),
        travStep travCrash fr 3 s 1 = .error TravErr.attributeError := by
      intro s fr
      unfold travStep
      simp only []
      rw [if_neg (by simp)]
      rw [if_pos ⟨by norm_num, by norm_num, Or.inl rfl⟩]
      rfl
    have hstep0 : ∃ s', travStep travCrash (freeFlag travCrash false) 3
        travInit 0 = .ok s' := by
      unfold travStep
      simp only []
      rw [if_neg (by simp [travCrash])]
      rw [if_neg (by simp)]
      rw [if_neg (by simp [travCrash, dOf])]
      rw [if_neg (by simp)]
      exact ⟨_, rfl⟩
    obtain ⟨s', hs'⟩ := hstep0
    have hgo : travGo travCrash (freeFlag travCrash false) travCrash.length 0
        travInit = .error TravErr.attributeError := by
      show travGo travCrash (freeFlag travCrash false) 3 0 travInit = _
      rw [travGo, dif_pos (by norm_num), hs']
      show travGo travCrash (freeFlag travCrash false) 3 1 s' = _
      rw [travGo, dif_pos (by norm_num), hstep1 s' (freeFlag travCrash false)]
      rfl
    have hc1 : ¬(travCrash.length < 3) := by
      rw [show travCrash.length = 3 from rfl]
      norm_num
    have hc2 : ¬((travCrash.getD 0 default).st.p = none ∨
        peOf (travCrash.getD 0 default).st.p = none ∨
        pnOf (travCrash.getD 0 default).st.p = none) := by
      simp [travCrash, peOf, pnOf]
    have hc3 : ¬(false = true ∧
        (travCrash.getD (travCrash.length - 1) default).st.p = none) := by
      simp
    unfold traverseValidate
    rw [if_neg hc1, if_neg hc2, if_neg hc3, hgo]
    rfl

end Groma
